import Mathlib

/-!
Verification development for the atlas-hub request-execution plane.

The definitions below are a shallow embedding of the TypeScript sources:
the CRUD compiler (`lib/sql-builder.ts`, `lib/query-parser.ts`,
`services/crud.ts`), the public route handlers (`routes/public/db.ts`,
`routes/public/storage.ts`), the admin SQL executor (`services/sql.ts`),
the runtime-settings store (`services/runtime-settings.ts`), the backup
retention classifier (`scheduler.ts` / `services/backup.ts`), the
scheduler dispatch loop (`scheduler.ts`), project provisioning
(`services/project.ts`) and the master-key derivations of
`lib/crypto.ts` and `scheduler.ts`.  JavaScript values that the code
only carries around (never inspects) are a type parameter; JavaScript
numbers coming out of `parseInt` are modelled as an integer or NaN;
fallible code returns `Except`.
-/

set_option maxRecDepth 10000

namespace AtlasHub

/-- Kernel-friendly prefix test, equivalent to `String.startsWith`. -/
def strStartsWith (s pre : String) : Bool :=
  pre.toList.isPrefixOf s.toList

/-- Kernel-friendly character drop, equivalent to `String.drop`. -/
def strDrop (s : String) (n : Nat) : String :=
  String.mk (s.toList.drop n)

/-- Worker for single-character splitting. -/
def splitOnCharAux (c : Char) : List Char → List Char → List (List Char)
  | [], acc => [acc.reverse]
  | x :: xs, acc =>
    if x = c then acc.reverse :: splitOnCharAux c xs []
    else splitOnCharAux c xs (x :: acc)

/-- Kernel-friendly split on a single separator character, equivalent
to `String.splitOn` with a one-character separator (and to the
JavaScript `split`, which never returns an empty list). -/
def splitOnChar (c : Char) (s : String) : List String :=
  (splitOnCharAux c s.toList []).map String.mk

/-- Kernel-friendly whitespace trim, equivalent to `String.trim` and
the JavaScript `trim()`. -/
def trimChars (s : String) : String :=
  String.mk (((s.toList.dropWhile (fun c => c.isWhitespace)).reverse.dropWhile
    (fun c => c.isWhitespace)).reverse)

/-- Kernel-friendly separator join, equivalent to `String.intercalate`
and the JavaScript `join`. -/
def joinSep (sep : String) : List String → String
  | [] => ""
  | [x] => x
  | x :: y :: xs => x ++ sep ++ joinSep sep (y :: xs)

/-- Kernel-friendly ASCII uppercase, equivalent to `String.toUpper`
on the inputs at hand. -/
def strUpper (s : String) : String :=
  String.mk (s.toList.map Char.toUpper)

/-- Filter operators of the public CRUD grammar.  The source literal
operator strings are `eq, neq, lt, lte, gt, gte, like, ilike, in`;
the last one is named `inList` here because `in` is reserved. -/
inductive FilterOperator
  | eq
  | neq
  | lt
  | lte
  | gt
  | gte
  | like
  | ilike
  | inList
deriving DecidableEq

/-- JavaScript value as the CRUD layer sees it: an opaque scalar of
type `α` or an array of scalars (the only shape the code inspects,
via `Array.isArray`). -/
inductive JsValue (α : Type)
  | scalar (a : α)
  | arr (xs : List α)
deriving DecidableEq

/-- ParsedFilter from `@atlashub/shared`: `column`, `operator`, `value`. -/
structure ParsedFilter (α : Type) where
  column : String
  operator : FilterOperator
  value : JsValue α
deriving DecidableEq

/-- Order direction of `order=col.asc` / `order=col.desc`. -/
inductive OrderDirection
  | asc
  | desc
deriving DecidableEq

/-- ParsedOrder from `@atlashub/shared`. -/
structure ParsedOrder where
  column : String
  direction : OrderDirection
deriving DecidableEq

/-- Select list: `*` or an explicit column list (source type `string[] | '*'`). -/
inductive SelectList
  | star
  | cols (columns : List String)
deriving DecidableEq

/-- Mirror of `direction.toUpperCase()` on the two possible values. -/
def directionUpper : OrderDirection → String
  | OrderDirection.asc => "ASC"
  | OrderDirection.desc => "DESC"

/-- Placeholder list `$i, $i+1, …` for the `in` operator, mirroring
`filter.value.map((_, i) => '$' + (paramIndex + i)).join(', ')`. -/
def inPlaceholders (paramIndex count : Nat) : String :=
  joinSep (", ") ((List.range count).map (fun i => "$" ++ toString (paramIndex + i)))

/-- Worker for `buildWhereClause` from `lib/sql-builder.ts`: walks the
filter list threading `paramIndex`, producing the condition strings and
the pushed parameter values.  Every `switch` case of the source appears
as one match arm; the `in` case is skipped when the value is not a
non-empty array, exactly as the `Array.isArray` guard does. -/
def whereParts {α : Type} : List (ParsedFilter α) → Nat → List String × List (JsValue α)
  | [], _ => ([], [])
  | f :: rest, paramIndex =>
    let quotedColumn := "\"" ++ f.column ++ "\""
    match f.operator with
    | FilterOperator.eq =>
      let r := whereParts rest (paramIndex + 1)
      ((quotedColumn ++ " = $" ++ toString paramIndex) :: r.1, f.value :: r.2)
    | FilterOperator.neq =>
      let r := whereParts rest (paramIndex + 1)
      ((quotedColumn ++ " != $" ++ toString paramIndex) :: r.1, f.value :: r.2)
    | FilterOperator.lt =>
      let r := whereParts rest (paramIndex + 1)
      ((quotedColumn ++ " < $" ++ toString paramIndex) :: r.1, f.value :: r.2)
    | FilterOperator.lte =>
      let r := whereParts rest (paramIndex + 1)
      ((quotedColumn ++ " <= $" ++ toString paramIndex) :: r.1, f.value :: r.2)
    | FilterOperator.gt =>
      let r := whereParts rest (paramIndex + 1)
      ((quotedColumn ++ " > $" ++ toString paramIndex) :: r.1, f.value :: r.2)
    | FilterOperator.gte =>
      let r := whereParts rest (paramIndex + 1)
      ((quotedColumn ++ " >= $" ++ toString paramIndex) :: r.1, f.value :: r.2)
    | FilterOperator.like =>
      let r := whereParts rest (paramIndex + 1)
      ((quotedColumn ++ " LIKE $" ++ toString paramIndex) :: r.1, f.value :: r.2)
    | FilterOperator.ilike =>
      let r := whereParts rest (paramIndex + 1)
      ((quotedColumn ++ " ILIKE $" ++ toString paramIndex) :: r.1, f.value :: r.2)
    | FilterOperator.inList =>
      match f.value with
      | JsValue.scalar _ => whereParts rest paramIndex
      | JsValue.arr xs =>
        if xs.length > 0 then
          let r := whereParts rest (paramIndex + xs.length)
          ((quotedColumn ++ " IN (" ++ inPlaceholders paramIndex xs.length ++ ")") :: r.1,
            xs.map JsValue.scalar ++ r.2)
        else whereParts rest paramIndex

/-- buildWhereClause from `lib/sql-builder.ts`: empty filter list gives
an empty clause, otherwise `WHERE c1 AND c2 AND …`. -/
def buildWhereClause {α : Type} (filters : List (ParsedFilter α)) (startParamIndex : Nat) :
    String × List (JsValue α) :=
  if filters.length = 0 then ("", [])
  else
    let r := whereParts filters startParamIndex
    (if r.1.length > 0 then "WHERE " ++ joinSep (" AND ") r.1 else "", r.2)

/-- buildOrderClause from `lib/sql-builder.ts`. -/
def buildOrderClause (order : Option ParsedOrder) : String :=
  match order with
  | none => ""
  | some o => "ORDER BY \"" ++ o.column ++ "\" " ++ directionUpper o.direction

/-- buildSelectColumns from `lib/sql-builder.ts`: `*` stays `*`; an
explicit list is filtered to the allowed columns, falling back to `*`
when nothing remains, and the survivors are quoted and joined. -/
def buildSelectColumns (select : SelectList) (allowedColumns : List String) : String :=
  match select with
  | SelectList.star => "*"
  | SelectList.cols cs =>
    let validColumns := cs.filter (fun col => allowedColumns.contains col)
    if validColumns.length = 0 then "*"
    else joinSep (", ") (validColumns.map (fun col => "\"" ++ col ++ "\""))

/-- The operator table of `lib/query-parser.ts`, in source order (the
parse loop takes the first operator whose `op + "."` prefixes the key). -/
def FILTER_OPERATOR_NAMES : List (String × FilterOperator) :=
  [("eq", FilterOperator.eq), ("neq", FilterOperator.neq), ("lt", FilterOperator.lt),
   ("lte", FilterOperator.lte), ("gt", FilterOperator.gt), ("gte", FilterOperator.gte),
   ("like", FilterOperator.like), ("ilike", FilterOperator.ilike), ("in", FilterOperator.inList)]

/-- Match a query key against the `<op>.<column>` pattern. -/
def matchOperatorKey (key : String) : Option (String × FilterOperator) :=
  (FILTER_OPERATOR_NAMES.find? (fun p => strStartsWith key (p.1 ++ "."))).map
    (fun p => (strDrop key (p.1.length + 1), p.2))

/-- Parse one query entry as a filter, mirroring the body of the loop
in `parseFilters`: a matched key with a non-empty column yields a
filter; the `in` operator splits its value on commas and trims. -/
def parseFilterEntry (key value : String) : Option (ParsedFilter String) :=
  match matchOperatorKey key with
  | none => none
  | some (column, oper) =>
    if column = "" then none
    else if oper = FilterOperator.inList then
      some ⟨column, oper, JsValue.arr ((splitOnChar (',') value).map (fun v => trimChars v))⟩
    else some ⟨column, oper, JsValue.scalar value⟩

/-- parseFilters from `lib/query-parser.ts` over the query entries. -/
def parseFilters (query : List (String × String)) : List (ParsedFilter String) :=
  query.filterMap (fun kv => parseFilterEntry kv.1 kv.2)

/-- parseOrder from `lib/query-parser.ts`: `column.asc` / `column.desc`. -/
def parseOrder (orderStr : Option String) : Option ParsedOrder :=
  match orderStr with
  | none => none
  | some s =>
    if s = "" then none
    else
      match splitOnChar ('.') s with
      | [column, direction] =>
        if direction = "asc" then some ⟨column, OrderDirection.asc⟩
        else if direction = "desc" then some ⟨column, OrderDirection.desc⟩
        else none
      | _ => none

/-- parseSelect from `lib/query-parser.ts`. -/
def parseSelect (selectStr : Option String) : SelectList :=
  match selectStr with
  | none => SelectList.star
  | some s =>
    if s = "" ∨ s = "*" then SelectList.star
    else SelectList.cols (((splitOnChar (',') s).map (fun c => trimChars c)).filter (fun c => c ≠ ""))

/-- JavaScript number produced by `parseInt`: an integer or NaN. -/
inductive JsNum
  | int (n : Int)
  | nan
deriving DecidableEq

/-- Helper for `x || d` on an optional JS number: `undefined`, `NaN`
and `0` are falsy and give the default. -/
def jsOrInt (x : Option JsNum) (d : Int) : Int :=
  match x with
  | none => d
  | some JsNum.nan => d
  | some (JsNum.int n) => if n = 0 then d else n

/-- Digits to a natural number. -/
def natOfDigits (ds : List Char) : Nat :=
  ds.foldl (fun acc c => acc * 10 + (c.toNat - ('0').toNat)) 0

/-- Model of JavaScript `parseInt(s, 10)`: skip leading whitespace,
optional sign, then the maximal digit prefix; no digits means NaN. -/
def parseIntJs (s : String) : JsNum :=
  let cs := s.toList.dropWhile (fun c => c.isWhitespace)
  let signed : Int × List Char :=
    match cs with
    | '-' :: r => (-1, r)
    | '+' :: r => (1, r)
    | r => (1, r)
  let digits := signed.2.takeWhile (fun c => c.isDigit)
  if digits.isEmpty then JsNum.nan
  else JsNum.int (signed.1 * (natOfDigits digits : Int))

/-- Column record returned by the `information_schema` introspection in
`services/crud.ts` (field `type` is renamed `dataType`, `type` being
reserved). -/
structure ColumnInfo where
  name : String
  dataType : String
  nullable : Bool
  defaultValue : Option String
deriving DecidableEq

/-- TableInfo from `@atlashub/shared`. -/
structure TableInfo where
  tableName : String
  columns : List ColumnInfo
deriving DecidableEq

/-- Classed errors thrown by the embedded handlers (`BadRequestError`,
`NotFoundError`, `ForbiddenError` in `lib/errors.ts`). -/
inductive CrudError
  | badRequest (message : String)
  | notFound (message : String)
  | forbidden (message : String)
deriving DecidableEq

/-- Startup query configuration.  Modelled from the spec: the file
`config/env.ts` is not part of the provided sources; §6 of the spec
fixes `defaultRowsLimit = 100`, `maxRowsPerQuery = 1000` and a
configurable `statementTimeoutMs`. -/
structure QueryConfig where
  defaultRowsLimit : Int
  maxRowsPerQuery : Int
  statementTimeoutMs : Int
deriving DecidableEq

/-- Options record taken by `crudService.select`. -/
structure SelectOptions (α : Type) where
  select : Option SelectList
  order : Option ParsedOrder
  limit : Option JsNum
  offset : Option JsNum
  filters : Option (List (ParsedFilter α))
deriving DecidableEq

/-- Find a table by name, mirroring `tables.find(t => t.tableName === table)`. -/
def findTable (tables : List TableInfo) (table : String) : Option TableInfo :=
  tables.find? (fun t => t.tableName = table)

/-- The allowed column set of a table: `tableInfo.columns.map(c => c.name)`. -/
def allowedColumnsOf (t : TableInfo) : List String :=
  t.columns.map (fun c => c.name)

/-- Order-column validation step of `crudService.select`. -/
def checkOrderColumn (allowedColumns : List String) : Option ParsedOrder → Except CrudError Unit
  | none => Except.ok ()
  | some o =>
    if allowedColumns.contains o.column then Except.ok ()
    else Except.error (CrudError.badRequest ("Invalid order column: " ++ o.column))

/-- Filter-column validation loop of `crudService.select` / `update` /
`delete`: the first unknown column raises `BadRequest`. -/
def checkFilterColumns {α : Type} (allowedColumns : List String) :
    Option (List (ParsedFilter α)) → Except CrudError Unit
  | none => Except.ok ()
  | some fs =>
    match fs.find? (fun f => ! allowedColumns.contains f.column) with
    | some f => Except.error (CrudError.badRequest ("Invalid filter column: " ++ f.column))
    | none => Except.ok ()

/-- Compiled SELECT statement: the text, the bound parameter vector and
the two inlined bounds (the `limit` and `offset` let-bindings of the
source, which are interpolated into the statement). -/
structure SelectCompiled (α : Type) where
  sql : String
  params : List (JsValue α)
  limit : Int
  offset : Int
deriving DecidableEq

/-- crudService.select from `services/crud.ts`, up to the point the
statement and parameter vector are handed to the app pool.  The cached
table list is an argument (the cache itself is an effect). -/
def crudSelect {α : Type} (cfg : QueryConfig) (tables : List TableInfo) (table : String)
    (options : SelectOptions α) : Except CrudError (SelectCompiled α) :=
  match findTable tables table with
  | none => Except.error (CrudError.notFound ("Table \"" ++ table ++ "\" not found"))
  | some tableInfo =>
    let allowedColumns := allowedColumnsOf tableInfo
    match checkOrderColumn allowedColumns options.order with
    | Except.error e => Except.error e
    | Except.ok _ =>
      match checkFilterColumns allowedColumns options.filters with
      | Except.error e => Except.error e
      | Except.ok _ =>
        let selectCols := buildSelectColumns (options.select.getD SelectList.star) allowedColumns
        let wc := buildWhereClause (options.filters.getD []) 1
        let orderClause := buildOrderClause options.order
        let limit : Int := min (jsOrInt options.limit cfg.defaultRowsLimit) cfg.maxRowsPerQuery
        let offset : Int := jsOrInt options.offset 0
        let sql := "\n      SELECT " ++ selectCols ++ "\n      FROM \"" ++ table ++ "\"\n      "
          ++ wc.1 ++ "\n      " ++ orderClause ++ "\n      LIMIT " ++ toString limit
          ++ " OFFSET " ++ toString offset ++ "\n    "
        Except.ok ⟨sql, wc.2, limit, offset⟩

/-- Per-entry loop of `crudService.insert`: validates each body key
against the allowed columns and builds the quoted column list, the
value vector and the placeholder list. -/
def insertRowParts {α : Type} (allowedColumns : List String) :
    List (String × JsValue α) → Nat →
    Except CrudError (List String × List (JsValue α) × List String)
  | [], _ => Except.ok ([], [], [])
  | (col, val) :: rest, paramIndex =>
    if allowedColumns.contains col then
      match insertRowParts allowedColumns rest (paramIndex + 1) with
      | Except.error e => Except.error e
      | Except.ok r =>
        Except.ok (("\"" ++ col ++ "\"") :: r.1, val :: r.2.1,
          ("$" ++ toString paramIndex) :: r.2.2)
    else Except.error (CrudError.badRequest ("Invalid column: " ++ col))

/-- Single-row compilation step of `crudService.insert`. -/
def crudInsertRow {α : Type} (table : String) (allowedColumns : List String) (returning : Bool)
    (row : List (String × JsValue α)) : Except CrudError (String × List (JsValue α)) :=
  match insertRowParts allowedColumns row 1 with
  | Except.error e => Except.error e
  | Except.ok parts =>
    let sql := "\n        INSERT INTO \"" ++ table ++ "\" (" ++ joinSep (", ") parts.1
      ++ ")\n        VALUES (" ++ joinSep (", ") parts.2.2 ++ ")\n        "
      ++ (if returning then "RETURNING *" else "") ++ "\n      "
    Except.ok (sql, parts.2.1)

/-- Sequential row loop of `crudService.insert`: rows are compiled and
executed one at a time; the first failing row aborts the loop. -/
def crudInsertRows {α : Type} (table : String) (allowedColumns : List String) (returning : Bool) :
    List (List (String × JsValue α)) → Except CrudError (List (String × List (JsValue α)))
  | [] => Except.ok []
  | row :: rest =>
    match crudInsertRow table allowedColumns returning row with
    | Except.error e => Except.error e
    | Except.ok st =>
      match crudInsertRows table allowedColumns returning rest with
      | Except.error e => Except.error e
      | Except.ok sts => Except.ok (st :: sts)

/-- crudService.insert from `services/crud.ts`: validates the table,
then compiles one INSERT statement per row (executed one at a time). -/
def crudInsert {α : Type} (tables : List TableInfo) (table : String)
    (rows : List (List (String × JsValue α))) (returning : Bool) :
    Except CrudError (List (String × List (JsValue α))) :=
  match findTable tables table with
  | none => Except.error (CrudError.notFound ("Table \"" ++ table ++ "\" not found"))
  | some tableInfo => crudInsertRows table (allowedColumnsOf tableInfo) returning rows

/-- SET-clause loop of `crudService.update`: validates each body key
and builds `"col" = $i` fragments, returning the next parameter index. -/
def setClauseParts {α : Type} (allowedColumns : List String) :
    List (String × JsValue α) → Nat →
    Except CrudError (List String × List (JsValue α) × Nat)
  | [], paramIndex => Except.ok ([], [], paramIndex)
  | (col, val) :: rest, paramIndex =>
    if allowedColumns.contains col then
      match setClauseParts allowedColumns rest (paramIndex + 1) with
      | Except.error e => Except.error e
      | Except.ok r =>
        Except.ok (("\"" ++ col ++ "\" = $" ++ toString paramIndex) :: r.1, val :: r.2.1, r.2.2)
    else Except.error (CrudError.badRequest ("Invalid column: " ++ col))

/-- crudService.update from `services/crud.ts`, compiled statement and
parameter vector (`updateValues ++ whereValues`). -/
def crudUpdate {α : Type} (tables : List TableInfo) (table : String)
    (values : List (String × JsValue α)) (filters : List (ParsedFilter α)) (returning : Bool) :
    Except CrudError (String × List (JsValue α)) :=
  match findTable tables table with
  | none => Except.error (CrudError.notFound ("Table \"" ++ table ++ "\" not found"))
  | some tableInfo =>
    let allowedColumns := allowedColumnsOf tableInfo
    match checkFilterColumns allowedColumns (some filters) with
    | Except.error e => Except.error e
    | Except.ok _ =>
      match setClauseParts allowedColumns values 1 with
      | Except.error e => Except.error e
      | Except.ok parts =>
        let wc := buildWhereClause filters parts.2.2
        let allValues := parts.2.1 ++ wc.2
        let sql := "\n      UPDATE \"" ++ table ++ "\"\n      SET "
          ++ joinSep (", ") parts.1 ++ "\n      " ++ wc.1 ++ "\n      "
          ++ (if returning then "RETURNING *" else "") ++ "\n    "
        Except.ok (sql, allValues)

/-- crudService.delete from `services/crud.ts`. -/
def crudDelete {α : Type} (tables : List TableInfo) (table : String)
    (filters : List (ParsedFilter α)) : Except CrudError (String × List (JsValue α)) :=
  match findTable tables table with
  | none => Except.error (CrudError.notFound ("Table \"" ++ table ++ "\" not found"))
  | some tableInfo =>
    let allowedColumns := allowedColumnsOf tableInfo
    match checkFilterColumns allowedColumns (some filters) with
    | Except.error e => Except.error e
    | Except.ok _ =>
      let wc := buildWhereClause filters 1
      Except.ok ("DELETE FROM \"" ++ table ++ "\" " ++ wc.1, wc.2)

/-- API-key tier attached to an authenticated public request. -/
inductive ApiKeyType
  | publishable
  | secret
deriving DecidableEq

/-- ProjectContext resolved by `publicAuthMiddleware` from the
`x-api-key` header. -/
structure ProjectContext where
  projectId : String
  keyType : ApiKeyType
deriving DecidableEq

/-- Validation of `tableNameSchema` from `@atlashub/shared`:
`min(1).max(63)` and `/^[a-z_][a-z0-9_]*$/i`. -/
def tableNameValid (s : String) : Bool :=
  decide (1 ≤ s.length) && decide (s.length ≤ 63) &&
    (match s.toList with
     | [] => false
     | c :: rest => (c.isAlpha || c = '_') && rest.all (fun d => d.isAlphanum || d = '_'))

/-- Query string of a request, as the ordered entry list of the
`Record<string, string>` Fastify hands the handler. -/
structure QueryString where
  entries : List (String × String)
deriving DecidableEq

/-- Lookup of one query-string key. -/
def qget (q : QueryString) (key : String) : Option String :=
  (q.entries.find? (fun kv => kv.1 = key)).map (fun kv => kv.2)

/-- Mirrors `v ? parseInt(v, 10) : undefined` on an optional string
(the empty string is falsy). -/
def parseOptionalInt (v : Option String) : Option JsNum :=
  match v with
  | none => none
  | some s => if s = "" then none else some (parseIntJs s)

/-- Introspection statement sent by `crudService.getTables` on a schema
cache miss. -/
def tablesIntrospectionSql : String :=
  "SELECT table/column metadata FROM information_schema (app pool)"

/-- Statement emitted to the tenant database: text plus bound params. -/
abbrev EmittedStmt := String × List (JsValue String)

/-- Trace of tenant-database statements a crud call would send: the
introspection query when the schema cache misses, then the compiled
statement(s) on successful compilation. -/
def introTrace (cacheHit : Bool) : List EmittedStmt :=
  if cacheHit then [] else [(tablesIntrospectionSql, [])]

/-- GET `/v1/db/:table` handler from `routes/public/db.ts`, returning
the handler outcome and the statements sent to the tenant database. -/
def handleDbGet (cfg : QueryConfig) (tables : List TableInfo) (cacheHit : Bool)
    (ctx : ProjectContext) (tableParam : String) (q : QueryString) :
    Except CrudError (SelectCompiled String) × List EmittedStmt :=
  if ! tableNameValid tableParam then
    (Except.error (CrudError.badRequest ("Invalid table name")), [])
  else
    let options : SelectOptions String :=
      { select := some (parseSelect (qget q ("select")))
        order := parseOrder (qget q ("order"))
        limit := parseOptionalInt (qget q ("limit"))
        offset := parseOptionalInt (qget q ("offset"))
        filters := some (parseFilters q.entries) }
    let _ := ctx.projectId
    match crudSelect cfg tables tableParam options with
    | Except.error e => (Except.error e, introTrace cacheHit)
    | Except.ok res => (Except.ok res, introTrace cacheHit ++ [(res.sql, res.params)])

/-- Body of POST `/v1/db/:table` after `insertBodySchema`. -/
structure InsertBody (α : Type) where
  rows : List (List (String × JsValue α))
  returning : Option Bool
deriving DecidableEq

/-- Body of PATCH `/v1/db/:table` after `updateBodySchema`. -/
structure UpdateBody (α : Type) where
  values : List (String × JsValue α)
  returning : Option Bool
deriving DecidableEq

/-- POST `/v1/db/:table` handler: table-name check, `insertBodySchema`
bounds (1..1000 rows), then `crudService.insert`.  Note the handler
never looks at `ctx.keyType`. -/
def handleDbPost (tables : List TableInfo) (cacheHit : Bool) (ctx : ProjectContext)
    (tableParam : String) (body : InsertBody String) :
    Except CrudError (List EmittedStmt) × List EmittedStmt :=
  if ! tableNameValid tableParam then
    (Except.error (CrudError.badRequest ("Invalid table name")), [])
  else if body.rows.length < 1 ∨ body.rows.length > 1000 then
    (Except.error (CrudError.badRequest ("Invalid request body")), [])
  else
    let _ := ctx.projectId
    match crudInsert tables tableParam body.rows (body.returning.getD false) with
    | Except.error e => (Except.error e, introTrace cacheHit)
    | Except.ok stmts => (Except.ok stmts, introTrace cacheHit ++ stmts)

/-- PATCH `/v1/db/:table` handler: table-name check, body check, filter
parse, then the mandatory at-least-one-filter guard before
`crudService.update` is ever invoked. -/
def handleDbPatch (tables : List TableInfo) (cacheHit : Bool) (ctx : ProjectContext)
    (tableParam : String) (body : UpdateBody String) (q : QueryString) :
    Except CrudError EmittedStmt × List EmittedStmt :=
  if ! tableNameValid tableParam then
    (Except.error (CrudError.badRequest ("Invalid table name")), [])
  else
    let filters := parseFilters q.entries
    if filters.length = 0 then
      (Except.error (CrudError.badRequest ("At least one filter is required for UPDATE")), [])
    else
      let _ := ctx.projectId
      match crudUpdate tables tableParam body.values filters (body.returning.getD false) with
      | Except.error e => (Except.error e, introTrace cacheHit)
      | Except.ok st => (Except.ok st, introTrace cacheHit ++ [st])

/-- DELETE `/v1/db/:table` handler, with the same mandatory filter
guard before `crudService.delete`. -/
def handleDbDelete (tables : List TableInfo) (cacheHit : Bool) (ctx : ProjectContext)
    (tableParam : String) (q : QueryString) :
    Except CrudError EmittedStmt × List EmittedStmt :=
  if ! tableNameValid tableParam then
    (Except.error (CrudError.badRequest ("Invalid table name")), [])
  else
    let filters := parseFilters q.entries
    if filters.length = 0 then
      (Except.error (CrudError.badRequest ("At least one filter is required for DELETE")), [])
    else
      let _ := ctx.projectId
      match crudDelete tables tableParam filters with
      | Except.error e => (Except.error e, introTrace cacheHit)
      | Except.ok st => (Except.ok st, introTrace cacheHit ++ [st])

/-- Query string of GET `/v1/storage/list` (`prefix` is `prefixStr`). -/
structure StorageListQuery where
  bucket : Option String
  prefixStr : Option String
  limit : Option String
deriving DecidableEq

/-- Arguments the handler passes to `storageService.listObjects`. -/
structure StorageListCall where
  projectId : String
  bucket : String
  prefixStr : Option String
  limit : Option JsNum
deriving DecidableEq

/-- GET `/v1/storage/list` handler from `routes/public/storage.ts`:
non-secret keys are refused with Forbidden before anything else. -/
def handleStorageList (ctx : ProjectContext) (q : StorageListQuery) :
    Except CrudError StorageListCall :=
  if ctx.keyType ≠ ApiKeyType.secret then
    Except.error (CrudError.forbidden ("Secret key required to list objects"))
  else
    match q.bucket with
    | none => Except.error (CrudError.badRequest ("bucket query parameter is required"))
    | some b =>
      if b = "" then Except.error (CrudError.badRequest ("bucket query parameter is required"))
      else Except.ok ⟨ctx.projectId, b, q.prefixStr, parseOptionalInt q.limit⟩

/-- Word characters for the purposes of a regex `\b` boundary. -/
def isWordChar (c : Char) : Bool :=
  c.isAlphanum || c = '_'

/-- Case-insensitive character comparison (ASCII, matching the `/i`
regex flag on the source patterns). -/
def charEqCI (a b : Char) : Bool :=
  a.toLower = b.toLower

/-- Case-insensitive prefix test on character lists. -/
def startsWithCI : List Char → List Char → Bool
  | w :: ws, s =>
    match s with
    | c :: cs => charEqCI w c && startsWithCI ws cs
    | [] => false
  | [], _ => true

/-- Token of the small pattern language covering the denylist regexes
of `services/sql.ts`: a word boundary, a literal (case-insensitive)
string, `\s*` and `\s+`. -/
inductive PatTok
  | bdry
  | str (w : String)
  | wsStar
  | wsPlus
deriving DecidableEq

/-- Does a `\b` boundary hold between the previous character and the
rest of the input? -/
def boundaryOk (prev : Option Char) (s : List Char) : Bool :=
  let a := match prev with
    | none => false
    | some c => isWordChar c
  let b := match s with
    | [] => false
    | c :: _ => isWordChar c
  a != b

/-- Match a token list at the current position; returns the previous
character and remaining input after the match. -/
def matchToks : List PatTok → Option Char → List Char → Option (Option Char × List Char)
  | [], prev, s => some (prev, s)
  | PatTok.bdry :: ps, prev, s =>
    if boundaryOk prev s then matchToks ps prev s else none
  | PatTok.str w :: ps, _prev, s =>
    if startsWithCI w.toList s then
      matchToks ps (w.toList.getLast?) (s.drop w.toList.length)
    else none
  | PatTok.wsStar :: ps, prev, s =>
    let sp := s.takeWhile (fun c => c.isWhitespace)
    matchToks ps (if sp.isEmpty then prev else sp.getLast?) (s.dropWhile (fun c => c.isWhitespace))
  | PatTok.wsPlus :: ps, _prev, s =>
    let sp := s.takeWhile (fun c => c.isWhitespace)
    if sp.isEmpty then none
    else matchToks ps sp.getLast? (s.dropWhile (fun c => c.isWhitespace))

/-- Search for a pattern match starting at any position. -/
def searchPat (p : List PatTok) : Option Char → List Char → Option (Option Char × List Char)
  | prev, s =>
    match matchToks p prev s with
    | some r => some r
    | none =>
      match s with
      | [] => none
      | c :: rest => searchPat p (some c) rest

/-- Containment test for one of the simple denylist patterns. -/
def containsPat (p : List PatTok) (s : String) : Bool :=
  (searchPat p none s.toList).isSome

/-- Matcher for `/\bCOPY\b.*\bPROGRAM\b/i`: a word `COPY` followed, on
the same line (regex `.` does not cross newlines), by a word
`PROGRAM`. -/
def copyProgramSearch : Option Char → List Char → Bool
  | prev, s =>
    (match matchToks [PatTok.bdry, PatTok.str ("COPY"), PatTok.bdry] prev s with
     | none => false
     | some r =>
       (searchPat [PatTok.bdry, PatTok.str ("PROGRAM"), PatTok.bdry] r.1
         (r.2.takeWhile (fun c => c ≠ '\n'))).isSome) ||
    (match s with
     | [] => false
     | c :: rest => copyProgramSearch (some c) rest)

/-- The simple members of `DANGEROUS_PATTERNS` in `services/sql.ts`
(the `COPY … PROGRAM` pattern is handled by `copyProgramSearch`). -/
def DANGEROUS_SIMPLE_PATTERNS : List (List PatTok) :=
  [[PatTok.bdry, PatTok.str ("DO"), PatTok.wsStar, PatTok.str ("$$")],
   [PatTok.bdry, PatTok.str ("pg_sleep"), PatTok.wsStar, PatTok.str ("(")],
   [PatTok.bdry, PatTok.str ("CREATE"), PatTok.wsPlus, PatTok.str ("EXTENSION"), PatTok.bdry],
   [PatTok.bdry, PatTok.str ("DROP"), PatTok.wsPlus, PatTok.str ("DATABASE"), PatTok.bdry],
   [PatTok.bdry, PatTok.str ("DROP"), PatTok.wsPlus, PatTok.str ("ROLE"), PatTok.bdry],
   [PatTok.bdry, PatTok.str ("ALTER"), PatTok.wsPlus, PatTok.str ("SYSTEM"), PatTok.bdry]]

/-- Denylist check of `validateSql`. -/
def matchesDangerous (s : String) : Bool :=
  copyProgramSearch none s.toList || DANGEROUS_SIMPLE_PATTERNS.any (fun p => containsPat p s)

/-- Count of non-empty `;`-separated segments, the approximate
single-statement check of `validateSql`. -/
def statementCount (trimmed : String) : Nat :=
  ((splitOnChar (';') trimmed).filter (fun seg => (trimChars seg).length > 0)).length

/-- validateSql from `services/sql.ts`. -/
def validateSql (sql : String) : Except CrudError Unit :=
  let trimmed := trimChars sql
  if statementCount trimmed > 1 then
    Except.error (CrudError.badRequest ("Only single statements are allowed"))
  else if matchesDangerous trimmed then
    Except.error (CrudError.badRequest ("Query contains disallowed operations"))
  else Except.ok ()

/-- isSelectQuery from `services/sql.ts`. -/
def isSelectQuery (sql : String) : Bool :=
  let trimmed := strUpper (trimChars sql)
  strStartsWith trimmed ("SELECT") || strStartsWith trimmed ("WITH")

/-- Word test for `/\bLIMIT\b/i`. -/
def hasLimitWord (sql : String) : Bool :=
  containsPat [PatTok.bdry, PatTok.str ("LIMIT"), PatTok.bdry] sql

/-- Mirror of `sql.replace(/;\s*$/, "")`: drop one trailing semicolon
together with the whitespace after it, when present. -/
def stripTrailingSemicolon (s : String) : String :=
  let rcs := s.toList.reverse
  match rcs.dropWhile (fun c => c.isWhitespace) with
  | ';' :: rest => String.mk rest.reverse
  | _ => s

/-- Runtime-settings record from `services/runtime-settings.ts`. -/
structure RuntimeSettings where
  rateLimitMax : Int
  rateLimitWindowMs : Int
  sqlMaxRows : Int
  sqlStatementTimeoutMs : Int
  minioPublicUrl : String
deriving DecidableEq

/-- updateDbLimits from `services/runtime-settings.ts`: each field is
replaced only when the new value is positive. -/
def updateDbLimits (s : RuntimeSettings) (sqlMaxRows sqlStatementTimeoutMs : Int) :
    RuntimeSettings :=
  let s1 := if sqlMaxRows > 0 then { s with sqlMaxRows := sqlMaxRows } else s
  if sqlStatementTimeoutMs > 0 then { s1 with sqlStatementTimeoutMs := sqlStatementTimeoutMs }
  else s1

/-- Statements `sqlService.executeAdminQuery` sends over the owner
pool: the session `statement_timeout` SET and the (possibly
LIMIT-capped) query.  The function receives the runtime-settings store
alongside the startup config, as both are importable in the source
module; which of the two it actually reads is what is at issue in the
runtime-caps claim. -/
def executeAdminQueryStatements (cfg : QueryConfig) (rt : RuntimeSettings) (sql : String) :
    Except CrudError (List String) :=
  match validateSql sql with
  | Except.error e => Except.error e
  | Except.ok _ =>
    let _ := rt.sqlMaxRows
    let timeoutSql := "SET statement_timeout = \x27" ++ toString cfg.statementTimeoutMs ++ "ms\x27"
    let finalSql :=
      if isSelectQuery sql && ! hasLimitWord sql then
        stripTrailingSemicolon sql ++ " LIMIT " ++ toString cfg.maxRowsPerQuery
      else sql
    Except.ok [timeoutSql, finalSql]

/-- Completed project-backup row as the retention query returns it
(newest first per project). -/
structure BackupRec where
  id : Nat
  createdAt : Int
  objectKey : String
deriving DecidableEq

/-- Milliseconds per day, the unit of the retention cutoffs. -/
def msPerDay : Int := 24 * 60 * 60 * 1000

/-- Filter `lastWeek` of the per-project retention classification in
`applyBackupRetention` (`scheduler.ts`; the gateway twin
`backupService.applyRetentionPolicy` has the same filters):
`created_at < threeDaysAgo && created_at >= oneWeekAgo`. -/
def retentionLastWeek (now : Int) (backups : List BackupRec) : List BackupRec :=
  backups.filter
    (fun b => decide (b.createdAt < now - 3 * msPerDay ∧ now - 7 * msPerDay ≤ b.createdAt))

/-- Filter `prevWeek` of the retention sweep:
`created_at < oneWeekAgo && created_at >= twoWeeksAgo`. -/
def retentionPrevWeek (now : Int) (backups : List BackupRec) : List BackupRec :=
  backups.filter
    (fun b => decide (b.createdAt < now - 7 * msPerDay ∧ now - 14 * msPerDay ≤ b.createdAt))

/-- Filter `older` of the retention sweep: `created_at < twoWeeksAgo`. -/
def retentionOlder (now : Int) (backups : List BackupRec) : List BackupRec :=
  backups.filter (fun b => decide (b.createdAt < now - 14 * msPerDay))

/-- Deletion set of the sweep: everything but the first (= newest)
element of `lastWeek`, everything but the first of `prevWeek`, and all
of `older`. -/
def retentionToDelete (now : Int) (backups : List BackupRec) : List Nat :=
  ((retentionLastWeek now backups).drop 1 ++ (retentionPrevWeek now backups).drop 1
    ++ retentionOlder now backups).map (fun b => b.id)

/-- Rows surviving the sweep: the deletion runs
`DELETE FROM backups WHERE id = ANY(toDelete)`. -/
def retentionKept (now : Int) (backups : List BackupRec) : List BackupRec :=
  backups.filter (fun b => ! (retentionToDelete now backups).contains b.id)

/-- Scheduler job fields used by the dispatch loop. -/
structure CronJobM where
  id : Nat
  retries : Nat
deriving DecidableEq

/-- Final status written to a run row by `updateJobRun` from the
dispatch loop (`result.success ? 'success' : 'fail'`). -/
inductive RunStatus
  | success
  | fail
deriving DecidableEq

/-- One `cron_job_runs` row. -/
structure RunRow where
  jobId : Nat
  attemptNumber : Nat
  status : RunStatus
deriving DecidableEq

/-- State touched by one dispatch: the concurrency counter, the run
rows, and the job row's `last_run_at` / `next_run_at`. -/
structure SchedulerSt where
  runningJobs : Nat
  runs : List RunRow
  lastRunAt : Option Int
  nextRunAt : Option Int
deriving DecidableEq

/-- Attempt loop of `executeJobWithRetries`: for
`attempt = 1 … max(1, retries+1)` a run row is inserted and finalized
with the attempt's outcome; the loop breaks on the first success. -/
def attemptRows (jobId : Nat) (outcome : Nat → Bool) : Nat → Nat → List RunRow
  | _attempt, 0 => []
  | attempt, Nat.succ fuel =>
    if outcome attempt then [⟨jobId, attempt, RunStatus.success⟩]
    else ⟨jobId, attempt, RunStatus.fail⟩ :: attemptRows jobId outcome (attempt + 1) fuel

/-- executeJobWithRetries from `scheduler.ts` as a state transformer.
A dispatch arriving while `runningJobs ≥ maxConcurrentJobs` is dropped
without touching anything.  Otherwise the counter is incremented, the
attempts run, `updateJobTimestamps` refreshes `last_run_at := now` and
`next_run_at := nextRun` unconditionally after the loop, and the
counter is decremented again (so it is net unchanged in the final
state). -/
def executeJobWithRetries (maxConcurrentJobs : Nat) (job : CronJobM) (outcome : Nat → Bool)
    (now : Int) (nextRun : Option Int) (st : SchedulerSt) : SchedulerSt :=
  if st.runningJobs ≥ maxConcurrentJobs then st
  else
    { runningJobs := st.runningJobs
      runs := st.runs ++ attemptRows job.id outcome 1 (max 1 (job.retries + 1))
      lastRunAt := some now
      nextRunAt := nextRun }

/-- Steps of `projectService.createProject`, in execution order.  The
first eleven run outside any transaction (database, roles, grants,
schema default privileges); the next eight are the platform-store
transaction plus the physical bucket creation; the last three are the
idempotent cleanup statements of the two catch blocks. -/
inductive ProvisionStep
  | createDatabase
  | createRoleOwner
  | createRoleApp
  | grantAllOnDb
  | grantConnect
  | grantSchemaOwner
  | alterDefaultTablesOwner
  | alterDefaultSequencesOwner
  | grantUsageApp
  | alterDefaultTablesApp
  | alterDefaultSequencesApp
  | insertProject
  | insertOwnerCred
  | insertAppCred
  | insertPublishableKey
  | insertSecretKey
  | createMinioBucket
  | insertBucketPrivate
  | insertBucketUploads
  | dropDatabaseIfExists
  | dropRoleOwnerIfExists
  | dropRoleAppIfExists
deriving DecidableEq

/-- Pre-transaction phase of `createProject`. -/
def provisionPhase1 : List ProvisionStep :=
  [ProvisionStep.createDatabase, ProvisionStep.createRoleOwner, ProvisionStep.createRoleApp,
   ProvisionStep.grantAllOnDb, ProvisionStep.grantConnect, ProvisionStep.grantSchemaOwner,
   ProvisionStep.alterDefaultTablesOwner, ProvisionStep.alterDefaultSequencesOwner,
   ProvisionStep.grantUsageApp, ProvisionStep.alterDefaultTablesApp,
   ProvisionStep.alterDefaultSequencesApp]

/-- Transactional phase of `createProject` (platform rows and the
physical bucket). -/
def provisionPhase2 : List ProvisionStep :=
  [ProvisionStep.insertProject, ProvisionStep.insertOwnerCred, ProvisionStep.insertAppCred,
   ProvisionStep.insertPublishableKey, ProvisionStep.insertSecretKey,
   ProvisionStep.createMinioBucket, ProvisionStep.insertBucketPrivate,
   ProvisionStep.insertBucketUploads]

/-- Cleanup statements of both catch blocks:
`DROP DATABASE IF EXISTS`, then `DROP ROLE IF EXISTS` for both roles. -/
def provisionCleanup : List ProvisionStep :=
  [ProvisionStep.dropDatabaseIfExists, ProvisionStep.dropRoleOwnerIfExists,
   ProvisionStep.dropRoleAppIfExists]

/-- Run steps in order until the first failure (the failing step is
part of the executed trace); returns the trace and whether a failure
occurred. -/
def runUntilFailure (fails : ProvisionStep → Bool) :
    List ProvisionStep → List ProvisionStep × Bool
  | [] => ([], false)
  | s :: rest =>
    if fails s then ([s], true)
    else
      let r := runUntilFailure fails rest
      (s :: r.1, r.2)

/-- createProject from `services/project.ts` as a step trace: each
phase stops at its first failing step and both catch blocks append the
idempotent cleanup and re-raise (modelled as returning no keys); the
two plaintext keys are returned exactly when everything succeeded. -/
def createProject (publishableKey secretKey : String) (fails : ProvisionStep → Bool) :
    List ProvisionStep × Option (String × String) :=
  let r1 := runUntilFailure fails provisionPhase1
  if r1.2 then (r1.1 ++ provisionCleanup, none)
  else
    let r2 := runUntilFailure fails provisionPhase2
    if r2.2 then (r1.1 ++ r2.1 ++ provisionCleanup, none)
    else (r1.1 ++ r2.1, some (publishableKey, secretKey))

/-- Word size constant for 32-bit modular arithmetic. -/
def w32 : Nat := 4294967296

/-- Addition modulo `2^32`. -/
def add32 (a b : Nat) : Nat := (a + b) % w32

/-- Right rotation of a 32-bit word. -/
def rotr32 (n x : Nat) : Nat := ((x >>> n) ||| (x <<< (32 - n))) % w32

/-- Three-way xor. -/
def xor3 (a b c : Nat) : Nat := (a ^^^ b) ^^^ c

/-- SHA-256 choice function. -/
def shaCh (x y z : Nat) : Nat := (x &&& y) ^^^ ((x ^^^ 4294967295) &&& z)

/-- SHA-256 majority function. -/
def shaMaj (x y z : Nat) : Nat := ((x &&& y) ^^^ (x &&& z)) ^^^ (y &&& z)

/-- SHA-256 big sigma 0. -/
def bigSigma0 (x : Nat) : Nat := xor3 (rotr32 2 x) (rotr32 13 x) (rotr32 22 x)

/-- SHA-256 big sigma 1. -/
def bigSigma1 (x : Nat) : Nat := xor3 (rotr32 6 x) (rotr32 11 x) (rotr32 25 x)

/-- SHA-256 small sigma 0. -/
def smallSigma0 (x : Nat) : Nat := xor3 (rotr32 7 x) (rotr32 18 x) (x >>> 3)

/-- SHA-256 small sigma 1. -/
def smallSigma1 (x : Nat) : Nat := xor3 (rotr32 17 x) (rotr32 19 x) (x >>> 10)

/-- SHA-256 round constants (FIPS 180-4), written in decimal. -/
def sha256K : List Nat :=
  [1116352408, 1899447441, 3049323471, 3921009573, 961987163,
   1508970993, 2453635748, 2870763221, 3624381080, 310598401,
   607225278, 1426881987, 1925078388, 2162078206, 2614888103,
   3248222580, 3835390401, 4022224774, 264347078, 604807628,
   770255983, 1249150122, 1555081692, 1996064986, 2554220882,
   2821834349, 2952996808, 3210313671, 3336571891, 3584528711,
   113926993, 338241895, 666307205, 773529912, 1294757372,
   1396182291, 1695183700, 1986661051, 2177026350, 2456956037,
   2730485921, 2820302411, 3259730800, 3345764771, 3516065817,
   3600352804, 4094571909, 275423344, 430227734, 506948616,
   659060556, 883997877, 958139571, 1322822218, 1537002063,
   1747873779, 1955562222, 2024104815, 2227730452, 2361852424,
   2428436474, 2756734187, 3204031479, 3329325298]

/-- SHA-256 initial hash state (FIPS 180-4), written in decimal. -/
def sha256H0 : List Nat :=
  [1779033703, 3144134277, 1013904242, 2773480762,
   1359893119, 2600822924, 528734635, 1541459225]

/-- Fuelled list chunking (structural, so it reduces in the kernel). -/
def chunksAux {α : Type} (n : Nat) : Nat → List α → List (List α)
  | 0, _ => []
  | _, [] => []
  | Nat.succ fuel, xs => xs.take n :: chunksAux n fuel (xs.drop n)

/-- Split a list into chunks of `n` elements. -/
def chunks {α : Type} (n : Nat) (xs : List α) : List (List α) :=
  chunksAux n xs.length xs

/-- Big-endian bytes to a word. -/
def wordOfBytesBE (bs : List Nat) : Nat :=
  bs.foldl (fun acc b => acc * 256 + b) 0

/-- Fixed-width big-endian byte encoding of a natural number. -/
def natToBytesBE : Nat → Nat → List Nat
  | 0, _ => []
  | Nat.succ k, n => natToBytesBE k (n / 256) ++ [n % 256]

/-- SHA-256 message padding: `0x80`, zeros to 56 mod 64, then the
bit length as eight big-endian bytes. -/
def sha256Pad (msg : List Nat) : List Nat :=
  let len := msg.length
  let zeros := (119 - (len % 64)) % 64
  msg ++ [128] ++ List.replicate zeros 0 ++ natToBytesBE 8 (len * 8)

/-- Next message-schedule word from the last sixteen. -/
def scheduleNext (acc : List Nat) : Nat :=
  add32 (add32 (smallSigma1 (acc.getD (acc.length - 2) 0)) (acc.getD (acc.length - 7) 0))
    (add32 (smallSigma0 (acc.getD (acc.length - 15) 0)) (acc.getD (acc.length - 16) 0))

/-- Expand the sixteen block words to the 64-entry schedule. -/
def sha256Schedule (blockWords : List Nat) : List Nat :=
  (List.range 48).foldl (fun acc _ => acc ++ [scheduleNext acc]) blockWords

/-- Working variables of the compression loop. -/
structure Sha256St where
  a : Nat
  b : Nat
  c : Nat
  d : Nat
  e : Nat
  f : Nat
  g : Nat
  h : Nat

/-- One compression round. -/
def sha256Round (st : Sha256St) (kw : Nat × Nat) : Sha256St :=
  let t1 := add32 (add32 (add32 st.h (bigSigma1 st.e)) (add32 (shaCh st.e st.f st.g) kw.1)) kw.2
  let t2 := add32 (bigSigma0 st.a) (shaMaj st.a st.b st.c)
  ⟨add32 t1 t2, st.a, st.b, st.c, add32 st.d t1, st.e, st.f, st.g⟩

/-- Compress one 16-word block into the running hash state. -/
def sha256Block (hs : List Nat) (blockWords : List Nat) : List Nat :=
  let w := sha256Schedule blockWords
  let init : Sha256St :=
    ⟨hs.getD 0 0, hs.getD 1 0, hs.getD 2 0, hs.getD 3 0, hs.getD 4 0, hs.getD 5 0,
     hs.getD 6 0, hs.getD 7 0⟩
  let fin := (sha256K.zip w).foldl sha256Round init
  [add32 (hs.getD 0 0) fin.a, add32 (hs.getD 1 0) fin.b, add32 (hs.getD 2 0) fin.c,
   add32 (hs.getD 3 0) fin.d, add32 (hs.getD 4 0) fin.e, add32 (hs.getD 5 0) fin.f,
   add32 (hs.getD 6 0) fin.g, add32 (hs.getD 7 0) fin.h]

/-- SHA-256 of a byte list, as 32 digest bytes.  This models the
`node:crypto` `createHash('sha256')` primitive (FIPS 180-4), which is
not part of the repository sources. -/
def sha256 (msg : List Nat) : List Nat :=
  let blocks := chunks 64 (sha256Pad msg)
  let hs := blocks.foldl (fun acc blk => sha256Block acc ((chunks 4 blk).map wordOfBytesBE))
    sha256H0
  hs.foldr (fun wrd acc => natToBytesBE 4 wrd ++ acc) []

/-- UTF-8 bytes of an ASCII string (every configured master key in the
claims is ASCII, where UTF-8 and code points coincide). -/
def strBytes (s : String) : List Nat :=
  s.toList.map Char.toNat

/-- Hex digit value. -/
def hexVal (c : Char) : Option Nat :=
  if c.isDigit then some (c.toNat - ('0').toNat)
  else if 'a' ≤ c ∧ c ≤ 'f' then some (c.toNat - ('a').toNat + 10)
  else if 'A' ≤ c ∧ c ≤ 'F' then some (c.toNat - ('A').toNat + 10)
  else none

/-- Hex decoding of character pairs, stopping at the first invalid
pair as `Buffer.from(s, 'hex')` does. -/
def hexDecode : List Char → List Nat
  | c1 :: c2 :: rest =>
    match hexVal c1, hexVal c2 with
    | some a, some b => (a * 16 + b) :: hexDecode rest
    | _, _ => []
  | _ => []

/-- getMasterKeyBuffer from the gateway `lib/crypto.ts`: a 64-character
key is hex-decoded; a key of at least 32 characters contributes its
first 32 bytes verbatim; anything shorter fails at startup. -/
def getMasterKeyBuffer (platformMasterKey : String) : Except String (List Nat) :=
  if platformMasterKey.length = 64 then Except.ok (hexDecode platformMasterKey.toList)
  else if 32 ≤ platformMasterKey.length then
    Except.ok ((platformMasterKey.toList.take 32).map Char.toNat)
  else Except.error ("PLATFORM_MASTER_KEY must be at least 32 characters")

/-- Key derivation inside `decryptCredentials` (and `decryptJobData`)
in `scheduler.ts`:
`crypto.createHash('sha256').update(config.platformMasterKey).digest()`. -/
def schedulerDerivedKey (platformMasterKey : String) : List Nat :=
  sha256 (strBytes platformMasterKey)

/-- Proposition of the cross-component claim: both components derive
the same AES-256-GCM key from the configured secret (what GCM
round-tripping between the gateway's `encrypt` and the scheduler's
`decryptCredentials` requires, since a GCM decryption under any other
key fails authentication). -/
def sameDerivedKey (platformMasterKey : String) : Prop :=
  getMasterKeyBuffer platformMasterKey = Except.ok (schedulerDerivedKey platformMasterKey)

/-- Success test on an `Except`. -/
def exceptIsOk {ε α : Type} : Except ε α → Bool
  | Except.ok _ => true
  | Except.error _ => false

/-- Error-kind test: is this a `BadRequest` failure? -/
def isBadRequest {α : Type} : Except CrudError α → Bool
  | Except.error (CrudError.badRequest _) => true
  | _ => false

/-- Fixture table for concrete evaluations: a `users` table with
columns `id` and `name`. -/
def usersTable : TableInfo :=
  ⟨"users", [⟨"id", "integer", false, none⟩, ⟨"name", "character varying", true, none⟩]⟩

/-- Fixture context holding a publishable key. -/
def pubCtx : ProjectContext := ⟨"p1", ApiKeyType.publishable⟩

/-- Fixture context holding a secret key. -/
def secCtx : ProjectContext := ⟨"p1", ApiKeyType.secret⟩

/-- Startup configuration used in concrete evaluations (default 100
rows, cap 1000, statement timeout 5000 ms, per the spec's configured
values). -/
def startupCfg : QueryConfig := ⟨100, 1000, 5000⟩

/-- C6: for every UPDATE or DELETE invocation whose query string
yields zero parsed filters, the handler fails with BadRequest and no
statement whatsoever is emitted toward the tenant database. -/
theorem c6_empty_filters_refused (tables : List TableInfo) (cacheHit : Bool)
    (ctx : ProjectContext) (tableParam : String) (body : UpdateBody String) (q : QueryString)
    (h : parseFilters q.entries = []) :
    isBadRequest (handleDbPatch tables cacheHit ctx tableParam body q).1 = true
    ∧ (handleDbPatch tables cacheHit ctx tableParam body q).2 = []
    ∧ isBadRequest (handleDbDelete tables cacheHit ctx tableParam q).1 = true
    ∧ (handleDbDelete tables cacheHit ctx tableParam q).2 = [] := by
  by_cases htn : tableNameValid tableParam = true <;>
    simp [handleDbPatch, handleDbDelete, htn, h, isBadRequest]

/-- Witness for C6 at a concrete empty-filter PATCH/DELETE request. -/
theorem c6_empty_filters_refused_witness :
    isBadRequest (handleDbPatch [usersTable] true secCtx ("users")
        ⟨[("name", JsValue.scalar ("x"))], none⟩ ⟨[("select", "name")]⟩).1 = true
    ∧ (handleDbPatch [usersTable] true secCtx ("users")
        ⟨[("name", JsValue.scalar ("x"))], none⟩ ⟨[("select", "name")]⟩).2 = []
    ∧ isBadRequest (handleDbDelete [usersTable] true secCtx ("users") ⟨[("select", "name")]⟩).1
        = true
    ∧ (handleDbDelete [usersTable] true secCtx ("users") ⟨[("select", "name")]⟩).2 = [] :=
  c6_empty_filters_refused [usersTable] true secCtx ("users")
    ⟨[("name", JsValue.scalar ("x"))], none⟩ ⟨[("select", "name")]⟩ (by decide)

/-- Age of a backup at the evaluation instant. -/
def backupAge (now : Int) (b : BackupRec) : Int := now - b.createdAt

/-- Retention property exactly as the claim states it, with every tier
half-open on its young side: keep all of `age < 3 d`, at most one of
`3 d ≤ age < 7 d`, at most one of `7 d ≤ age < 14 d`, none of
`age ≥ 14 d`. -/
def retentionClaimStated (now : Int) (backups : List BackupRec) : Prop :=
  ((retentionKept now backups).countP (fun b => decide (backupAge now b < 3 * msPerDay))
      = backups.countP (fun b => decide (backupAge now b < 3 * msPerDay)))
  ∧ ((retentionKept now backups).countP
      (fun b => decide (3 * msPerDay ≤ backupAge now b ∧ backupAge now b < 7 * msPerDay)) ≤ 1)
  ∧ ((retentionKept now backups).countP
      (fun b => decide (7 * msPerDay ≤ backupAge now b ∧ backupAge now b < 14 * msPerDay)) ≤ 1)
  ∧ ((retentionKept now backups).countP
      (fun b => decide (14 * msPerDay ≤ backupAge now b)) = 0)

/-- C5 counterexample: at `now = 15 d`, backups aged exactly 3 d and
4 d both fall into the claimed `[3 d, 7 d)` tier, yet the sweep keeps
both — the 3 d-old backup matches none of the deletion filters (the
`lastWeek` filter is strict at `threeDaysAgo`) and the 4 d-old backup
is the newest member of `lastWeek` — so the claimed at-most-one bound
fails at the tier boundary. -/
theorem c5_counterexample :
    ¬ retentionClaimStated (15 * msPerDay)
      [⟨1, 12 * msPerDay, "a"⟩, ⟨2, 11 * msPerDay, "b"⟩] := by
  unfold retentionClaimStated
  decide

/-- Helper: a duplicate-free list whose elements are pairwise equal
has at most one element. -/
theorem length_le_one_of_nodup_allEq {β : Type} {l : List β} (hnd : l.Nodup)
    (h : ∀ x ∈ l, ∀ y ∈ l, x = y) : l.length ≤ 1 := by
  match l with
  | [] => simp
  | [_] => simp
  | x :: y :: t =>
    exfalso
    have hxy : x = y := h x (by simp) y (by simp)
    have hne : x ≠ y := by
      have hc := List.nodup_cons.mp hnd
      intro he
      exact hc.1 (he ▸ List.mem_cons_self y t)
    exact hne hxy

/-- Helper: under distinct ids, equal ids identify equal rows. -/
theorem backup_id_inj {backups : List BackupRec}
    (hnd : (backups.map (fun b => b.id)).Nodup) {x y : BackupRec}
    (hx : x ∈ backups) (hy : y ∈ backups) (hid : x.id = y.id) : x = y :=
  List.inj_on_of_nodup_map hnd hx hy hid

/-- Helper: kept rows are exactly the rows whose id is not marked. -/
theorem mem_retentionKept_iff {now : Int} {backups : List BackupRec} {b : BackupRec} :
    b ∈ retentionKept now backups ↔
      b ∈ backups ∧ b.id ∉ retentionToDelete now backups := by
  simp [retentionKept, List.mem_filter]

/-- Helper: every id in the deletion set belongs to a row strictly
older than the three-day cutoff. -/
theorem mem_toDelete_elim {now : Int} {backups : List BackupRec} {i : Nat}
    (h : i ∈ retentionToDelete now backups) :
    ∃ b ∈ backups, b.id = i ∧ b.createdAt < now - 3 * msPerDay := by
  have hms : (msPerDay : Int) = 86400000 := rfl
  unfold retentionToDelete at h
  obtain ⟨b, hb, hid⟩ := List.mem_map.mp h
  rcases List.mem_append.mp hb with hb' | hbo
  · rcases List.mem_append.mp hb' with hlw | hpw
    · have hmem := List.drop_subset _ _ hlw
      have hf := List.mem_filter.mp hmem
      have hp := of_decide_eq_true hf.2
      exact ⟨b, hf.1, hid, hp.1⟩
    · have hmem := List.drop_subset _ _ hpw
      have hf := List.mem_filter.mp hmem
      have hp := of_decide_eq_true hf.2
      refine ⟨b, hf.1, hid, ?_⟩
      omega
  · have hf := List.mem_filter.mp hbo
    have hp := of_decide_eq_true hf.2
    refine ⟨b, hf.1, hid, ?_⟩
    omega

/-- Helper: the kept rows matching a tier filter number at most one,
provided every non-first member of that tier filter is marked for
deletion. -/
theorem kept_filter_le_one {now : Int} {backups : List BackupRec}
    (hnd : (backups.map (fun b => b.id)).Nodup) (pB : BackupRec → Bool)
    (hsub : ∀ x ∈ (backups.filter pB).drop 1, x.id ∈ retentionToDelete now backups) :
    (retentionKept now backups).countP pB ≤ 1 := by
  have hkey : ∀ x ∈ (retentionKept now backups).filter pB,
      x ∈ backups.filter pB ∧ x.id ∉ retentionToDelete now backups := by
    intro x hx
    have h1 := List.mem_filter.mp hx
    have h2 := mem_retentionKept_iff.mp h1.1
    exact ⟨List.mem_filter.mpr ⟨h2.1, h1.2⟩, h2.2⟩
  rw [List.countP_eq_length_filter]
  cases htier : backups.filter pB with
  | nil =>
    have : (retentionKept now backups).filter pB = [] := by
      apply List.eq_nil_iff_forall_not_mem.mpr
      intro x hx
      have := (hkey x hx).1
      rw [htier] at this
      exact absurd this (List.not_mem_nil x)
    simp [this]
  | cons hd tl =>
    have hall : ∀ x ∈ (retentionKept now backups).filter pB, x = hd := by
      intro x hx
      obtain ⟨hxt, hxnd⟩ := hkey x hx
      rw [htier] at hxt
      rcases List.mem_cons.mp hxt with h | h
      · exact h
      · exfalso
        apply hxnd
        apply hsub
        rw [htier]
        simpa using h
    have hndk : ((retentionKept now backups).filter pB).Nodup := by
      have hb : backups.Nodup := List.Nodup.of_map _ hnd
      exact List.Nodup.filter _ (List.Nodup.filter _ hb)
    exact length_le_one_of_nodup_allEq hndk
      (fun x hx y hy => (hall x hx).trans (hall y hy).symm)

/-- C5 as amended: the tiers of the implemented sweep are half-open on
the old side — all backups of age at most 3 days are kept, the bands
`(3 d, 7 d]` and `(7 d, 14 d]` each keep at most one backup, and
nothing older than 14 days survives (ids assumed distinct). -/
theorem c5_retention_tiers (now : Int) (backups : List BackupRec)
    (hnd : (backups.map (fun b => b.id)).Nodup) :
    (∀ b ∈ backups, backupAge now b ≤ 3 * msPerDay → b ∈ retentionKept now backups)
    ∧ (retentionKept now backups).countP
        (fun b => decide (3 * msPerDay < backupAge now b ∧ backupAge now b ≤ 7 * msPerDay)) ≤ 1
    ∧ (retentionKept now backups).countP
        (fun b => decide (7 * msPerDay < backupAge now b ∧ backupAge now b ≤ 14 * msPerDay)) ≤ 1
    ∧ (∀ b ∈ backups, 14 * msPerDay < backupAge now b →
        b ∉ retentionKept now backups) := by
  have hms : (msPerDay : Int) = 86400000 := rfl
  refine ⟨?_, ?_, ?_, ?_⟩
  · intro b hb hage
    rw [mem_retentionKept_iff]
    refine ⟨hb, ?_⟩
    intro hdel
    obtain ⟨b', hb', hid, hlt⟩ := mem_toDelete_elim hdel
    have heq : b' = b := backup_id_inj hnd hb' hb hid
    subst heq
    unfold backupAge at hage
    omega
  · have hcong : ∀ b : BackupRec,
        ((decide (3 * msPerDay < backupAge now b ∧ backupAge now b ≤ 7 * msPerDay)) = true
          ↔ (fun b => decide (b.createdAt < now - 3 * msPerDay
              ∧ now - 7 * msPerDay ≤ b.createdAt)) b = true) := by
      intro b
      simp only [decide_eq_true_eq]
      unfold backupAge
      omega
    rw [List.countP_congr (fun b _ => hcong b)]
    apply kept_filter_le_one hnd
    intro x hx
    unfold retentionToDelete
    apply List.mem_map.mpr
    refine ⟨x, ?_, rfl⟩
    apply List.mem_append.mpr
    left
    apply List.mem_append.mpr
    left
    exact hx
  · have hcong : ∀ b : BackupRec,
        ((decide (7 * msPerDay < backupAge now b ∧ backupAge now b ≤ 14 * msPerDay)) = true
          ↔ (fun b => decide (b.createdAt < now - 7 * msPerDay
              ∧ now - 14 * msPerDay ≤ b.createdAt)) b = true) := by
      intro b
      simp only [decide_eq_true_eq]
      unfold backupAge
      omega
    rw [List.countP_congr (fun b _ => hcong b)]
    apply kept_filter_le_one hnd
    intro x hx
    unfold retentionToDelete
    apply List.mem_map.mpr
    refine ⟨x, ?_, rfl⟩
    apply List.mem_append.mpr
    left
    apply List.mem_append.mpr
    right
    exact hx
  · intro b hb hage hkept
    rw [mem_retentionKept_iff] at hkept
    apply hkept.2
    unfold retentionToDelete
    apply List.mem_map.mpr
    refine ⟨b, ?_, rfl⟩
    apply List.mem_append.mpr
    right
    apply List.mem_filter.mpr
    refine ⟨hb, decide_eq_true ?_⟩
    unfold backupAge at hage
    omega

/-- Witness for the amended retention theorem on the spec's own
end-to-end dataset (ages 1 h, 2 d, 4 d, 5 d, 9 d, 20 d). -/
theorem c5_retention_tiers_witness :
    (∀ b ∈ ([⟨1, 15 * msPerDay - 3600000, "a"⟩, ⟨2, 13 * msPerDay, "b"⟩,
        ⟨3, 11 * msPerDay, "c"⟩, ⟨4, 10 * msPerDay, "d"⟩, ⟨5, 6 * msPerDay, "e"⟩,
        ⟨6, -5 * msPerDay, "f"⟩] : List BackupRec),
      backupAge (15 * msPerDay) b ≤ 3 * msPerDay →
        b ∈ retentionKept (15 * msPerDay) [⟨1, 15 * msPerDay - 3600000, "a"⟩,
          ⟨2, 13 * msPerDay, "b"⟩, ⟨3, 11 * msPerDay, "c"⟩, ⟨4, 10 * msPerDay, "d"⟩,
          ⟨5, 6 * msPerDay, "e"⟩, ⟨6, -5 * msPerDay, "f"⟩])
    ∧ (retentionKept (15 * msPerDay) [⟨1, 15 * msPerDay - 3600000, "a"⟩,
        ⟨2, 13 * msPerDay, "b"⟩, ⟨3, 11 * msPerDay, "c"⟩, ⟨4, 10 * msPerDay, "d"⟩,
        ⟨5, 6 * msPerDay, "e"⟩, ⟨6, -5 * msPerDay, "f"⟩]).countP
        (fun b => decide (3 * msPerDay < backupAge (15 * msPerDay) b
          ∧ backupAge (15 * msPerDay) b ≤ 7 * msPerDay)) ≤ 1
    ∧ (retentionKept (15 * msPerDay) [⟨1, 15 * msPerDay - 3600000, "a"⟩,
        ⟨2, 13 * msPerDay, "b"⟩, ⟨3, 11 * msPerDay, "c"⟩, ⟨4, 10 * msPerDay, "d"⟩,
        ⟨5, 6 * msPerDay, "e"⟩, ⟨6, -5 * msPerDay, "f"⟩]).countP
        (fun b => decide (7 * msPerDay < backupAge (15 * msPerDay) b
          ∧ backupAge (15 * msPerDay) b ≤ 14 * msPerDay)) ≤ 1
    ∧ (∀ b ∈ ([⟨1, 15 * msPerDay - 3600000, "a"⟩, ⟨2, 13 * msPerDay, "b"⟩,
        ⟨3, 11 * msPerDay, "c"⟩, ⟨4, 10 * msPerDay, "d"⟩, ⟨5, 6 * msPerDay, "e"⟩,
        ⟨6, -5 * msPerDay, "f"⟩] : List BackupRec),
      14 * msPerDay < backupAge (15 * msPerDay) b →
        b ∉ retentionKept (15 * msPerDay) [⟨1, 15 * msPerDay - 3600000, "a"⟩,
          ⟨2, 13 * msPerDay, "b"⟩, ⟨3, 11 * msPerDay, "c"⟩, ⟨4, 10 * msPerDay, "d"⟩,
          ⟨5, 6 * msPerDay, "e"⟩, ⟨6, -5 * msPerDay, "f"⟩]) :=
  c5_retention_tiers (15 * msPerDay)
    [⟨1, 15 * msPerDay - 3600000, "a"⟩, ⟨2, 13 * msPerDay, "b"⟩, ⟨3, 11 * msPerDay, "c"⟩,
     ⟨4, 10 * msPerDay, "d"⟩, ⟨5, 6 * msPerDay, "e"⟩, ⟨6, -5 * msPerDay, "f"⟩] (by decide)

/-- Helper: when every attempt fails, the attempt loop writes one
`fail` run row per attempt number. -/
theorem attemptRows_all_fail (jobId : Nat) (outcome : Nat → Bool)
    (hfail : ∀ i, outcome i = false) :
    ∀ n a, attemptRows jobId outcome a n
      = (List.range' a n).map (fun i => ⟨jobId, i, RunStatus.fail⟩) := by
  intro n
  induction n with
  | zero => intro a; simp [attemptRows]
  | succ m ih =>
    intro a
    simp [attemptRows, hfail a, List.range', ih (a + 1)]

/-- C9: a dispatch skipped for concurrency changes nothing (no run
row, no `last_run_at`, no `next_run_at`); an executed dispatch always
refreshes `last_run_at` and persists `next_run_at`, and when every
attempt fails it has inserted one failed run row per attempt. -/
theorem c9_dispatch_frame (maxConcurrentJobs : Nat) (job : CronJobM) (outcome : Nat → Bool)
    (now : Int) (nextRun : Option Int) (st : SchedulerSt) :
    (st.runningJobs ≥ maxConcurrentJobs →
      executeJobWithRetries maxConcurrentJobs job outcome now nextRun st = st)
    ∧ (st.runningJobs < maxConcurrentJobs →
      (executeJobWithRetries maxConcurrentJobs job outcome now nextRun st).lastRunAt = some now
      ∧ (executeJobWithRetries maxConcurrentJobs job outcome now nextRun st).nextRunAt = nextRun
      ∧ ((∀ i, outcome i = false) →
        (executeJobWithRetries maxConcurrentJobs job outcome now nextRun st).runs
          = st.runs ++ (List.range' 1 (max 1 (job.retries + 1))).map
              (fun i => ⟨job.id, i, RunStatus.fail⟩))) := by
  constructor
  · intro h
    simp [executeJobWithRetries, h]
  · intro h
    have hne : ¬ st.runningJobs ≥ maxConcurrentJobs := Nat.not_le.mpr h
    refine ⟨by simp [executeJobWithRetries, hne], by simp [executeJobWithRetries, hne], ?_⟩
    intro hfail
    simp [executeJobWithRetries, hne, attemptRows_all_fail job.id outcome hfail]

/-- Witness for C9: a dispatch skipped at `runningJobs = 1 ≥ 1`, and a
three-attempt all-failing dispatch at `runningJobs = 0 < 2`. -/
theorem c9_dispatch_frame_witness :
    executeJobWithRetries 1 ⟨7, 2⟩ (fun _ => false) 5 (some 9) ⟨1, [], none, none⟩
      = ⟨1, [], none, none⟩
    ∧ (executeJobWithRetries 2 ⟨7, 2⟩ (fun _ => false) 5 (some 9) ⟨0, [], none, none⟩).lastRunAt
      = some 5
    ∧ (executeJobWithRetries 2 ⟨7, 2⟩ (fun _ => false) 5 (some 9) ⟨0, [], none, none⟩).nextRunAt
      = some 9
    ∧ (executeJobWithRetries 2 ⟨7, 2⟩ (fun _ => false) 5 (some 9) ⟨0, [], none, none⟩).runs
      = (List.range' 1 (max 1 (2 + 1))).map (fun i => ⟨7, i, RunStatus.fail⟩) := by
  have h1 := (c9_dispatch_frame 1 ⟨7, 2⟩ (fun _ => false) 5 (some 9) ⟨1, [], none, none⟩).1
    (by decide)
  have h2 := (c9_dispatch_frame 2 ⟨7, 2⟩ (fun _ => false) 5 (some 9) ⟨0, [], none, none⟩).2
    (by decide)
  exact ⟨h1, h2.1, h2.2.1, by simpa using h2.2.2 (fun _ => rfl)⟩

/-- Helper: the failure flag of `runUntilFailure` is `List.any`. -/
theorem runUntilFailure_snd (fails : ProvisionStep → Bool) :
    ∀ l : List ProvisionStep, (runUntilFailure fails l).2 = l.any fails := by
  intro l
  induction l with
  | nil => simp [runUntilFailure]
  | cons s rest ih =>
    by_cases h : fails s = true <;> simp [runUntilFailure, h, ih]

/-- Helper: the two outcomes of `createProject`, by failure flag. -/
theorem createProject_cases (publishableKey secretKey : String)
    (fails : ProvisionStep → Bool) :
    ((provisionPhase1 ++ provisionPhase2).any fails = false →
      (createProject publishableKey secretKey fails).2 = some (publishableKey, secretKey))
    ∧ ((provisionPhase1 ++ provisionPhase2).any fails = true →
      ∃ t, createProject publishableKey secretKey fails = (t ++ provisionCleanup, none)) := by
  have h1 := runUntilFailure_snd fails provisionPhase1
  have h2 := runUntilFailure_snd fails provisionPhase2
  constructor
  · intro hall
    rw [List.any_append] at hall
    have ha1 : provisionPhase1.any fails = false := by
      cases hp : provisionPhase1.any fails <;> simp [hp] at hall ⊢
    have ha2 : provisionPhase2.any fails = false := by
      cases hp : provisionPhase2.any fails <;> simp [hp] at hall ⊢
    have hr1 : (runUntilFailure fails provisionPhase1).2 = false := by rw [h1]; exact ha1
    have hr2 : (runUntilFailure fails provisionPhase2).2 = false := by rw [h2]; exact ha2
    simp [createProject, hr1, hr2]
  · intro hsome
    rw [List.any_append] at hsome
    by_cases ha1 : provisionPhase1.any fails = true
    · have hr1 : (runUntilFailure fails provisionPhase1).2 = true := by rw [h1]; exact ha1
      exact ⟨(runUntilFailure fails provisionPhase1).1, by simp [createProject, hr1]⟩
    · have ha1f : provisionPhase1.any fails = false := by
        cases hp : provisionPhase1.any fails <;> simp_all
      have ha2 : provisionPhase2.any fails = true := by
        rw [ha1f] at hsome
        simpa using hsome
      have hr1 : (runUntilFailure fails provisionPhase1).2 = false := by rw [h1]; exact ha1f
      have hr2 : (runUntilFailure fails provisionPhase2).2 = true := by rw [h2]; exact ha2
      refine ⟨(runUntilFailure fails provisionPhase1).1
        ++ (runUntilFailure fails provisionPhase2).1, ?_⟩
      simp [createProject, hr1, hr2]

/-- C8: the plaintext keys come back exactly when every provisioning
step succeeded, and any failure makes the run end with the idempotent
cleanup statements (`DROP DATABASE IF EXISTS`, `DROP ROLE IF EXISTS`
twice) and no keys. -/
theorem c8_provision_cleanup (publishableKey secretKey : String)
    (fails : ProvisionStep → Bool) :
    ((createProject publishableKey secretKey fails).2 = some (publishableKey, secretKey)
      ↔ ∀ s ∈ provisionPhase1 ++ provisionPhase2, fails s = false)
    ∧ ((∃ s ∈ provisionPhase1 ++ provisionPhase2, fails s = true) →
      ∃ t, (createProject publishableKey secretKey fails).1 = t ++ provisionCleanup
        ∧ (createProject publishableKey secretKey fails).2 = none) := by
  have hc := createProject_cases publishableKey secretKey fails
  constructor
  · constructor
    · intro hk
      by_cases hany : (provisionPhase1 ++ provisionPhase2).any fails = true
      · obtain ⟨t, ht⟩ := hc.2 hany
        rw [ht] at hk
        simp at hk
      · intro s hs
        have hanyf : (provisionPhase1 ++ provisionPhase2).any fails = false := by
          cases hp : (provisionPhase1 ++ provisionPhase2).any fails <;> simp_all
        have := List.any_eq_false.mp hanyf s hs
        cases hf : fails s <;> simp_all
    · intro hall
      apply hc.1
      apply List.any_eq_false.mpr
      intro s hs
      rw [hall s hs]
      simp
  · intro hex
    obtain ⟨s, hs, hfs⟩ := hex
    have hany : (provisionPhase1 ++ provisionPhase2).any fails = true :=
      List.any_eq_true.mpr ⟨s, hs, hfs⟩
    obtain ⟨t, ht⟩ := hc.2 hany
    exact ⟨t, by rw [ht], by rw [ht]⟩

/-- Witness for C8: a run that fails at the platform-store project
insert ends with the cleanup statements and returns no keys, and a
failure-free run returns both plaintext keys. -/
theorem c8_provision_cleanup_witness :
    (∃ t, (createProject ("pk_a") ("sk_b")
        (fun s => s = ProvisionStep.insertProject)).1 = t ++ provisionCleanup
      ∧ (createProject ("pk_a") ("sk_b")
        (fun s => s = ProvisionStep.insertProject)).2 = none)
    ∧ ((createProject ("pk_a") ("sk_b") (fun _ => false)).2 = some ("pk_a", "sk_b")) := by
  constructor
  · exact (c8_provision_cleanup ("pk_a") ("sk_b") (fun s => s = ProvisionStep.insertProject)).2
      ⟨ProvisionStep.insertProject, by decide, by decide⟩
  · exact (c8_provision_cleanup ("pk_a") ("sk_b") (fun _ => false)).1.mpr (fun s _ => rfl)

/-- Concrete configured master key for the cross-component key
derivation check: 64 hex characters, the format the gateway
hex-decodes. -/
def c7MasterKey : String :=
  "0123456789abcdef0123456789abcdef0123456789abcdef0123456789abcdef"

/-- C7 (code bug): the gateway accepts this 64-hex master key and
derives its AES-256-GCM key by hex-decoding it, while the scheduler
derives `sha256(masterKey)` — a different 32-byte key — so the
scheduler's `decryptCredentials` can never authenticate a credential
encrypted by the gateway under the same configured secret. -/
theorem c7_key_derivation_mismatch :
    getMasterKeyBuffer c7MasterKey = Except.ok (hexDecode c7MasterKey.toList)
    ∧ schedulerDerivedKey c7MasterKey ≠ hexDecode c7MasterKey.toList
    ∧ ¬ sameDerivedKey c7MasterKey := by
  have h1 : getMasterKeyBuffer c7MasterKey = Except.ok (hexDecode c7MasterKey.toList) := by
    rfl
  have h2 : schedulerDerivedKey c7MasterKey ≠ hexDecode c7MasterKey.toList := by decide
  refine ⟨h1, h2, ?_⟩
  intro h
  unfold sameDerivedKey at h
  rw [h1] at h
  exact h2 (Except.ok.inj h).symm

/-- Runtime settings as initialized at startup from the spec's
configured values. -/
def rtStartup : RuntimeSettings := ⟨100, 60000, 1000, 5000, "http://localhost:9100"⟩

/-- C4 (code bug): after the admin settings endpoint lowers the SQL
caps to 5 rows / 250 ms (visible in the runtime-settings store), the
admin SQL executor still emits the startup `statement_timeout` of
5000 ms and appends `LIMIT 1000` — its output is identical whatever
the runtime-settings store holds, because `executeAdminQuery` reads
`config.query.*` and never `runtimeSettings`. -/
theorem c4_sql_caps_use_startup_config :
    (updateDbLimits rtStartup 5 250).sqlMaxRows = 5
    ∧ (updateDbLimits rtStartup 5 250).sqlStatementTimeoutMs = 250
    ∧ executeAdminQueryStatements startupCfg (updateDbLimits rtStartup 5 250)
        ("SELECT * FROM t")
      = Except.ok ["SET statement_timeout = \x275000ms\x27", "SELECT * FROM t LIMIT 1000"]
    ∧ executeAdminQueryStatements startupCfg (updateDbLimits rtStartup 5 250)
        ("SELECT * FROM t")
      = executeAdminQueryStatements startupCfg rtStartup ("SELECT * FROM t") := by
  refine ⟨by decide, by decide, by rfl, rfl⟩

/-- Error-kind test: is this a `Forbidden` failure? -/
def isForbidden {α : Type} : Except CrudError α → Bool
  | Except.error (CrudError.forbidden _) => true
  | _ => false

/-- C3 counterexample: a POST (insert) on `/v1/db/users` authenticated
with a publishable key is not refused — it compiles and emits the
INSERT — because the db route handlers never consult the key type,
contradicting the claimed Forbidden refusal of mutating CRUD under
publishable keys. -/
theorem c3_counterexample :
    pubCtx.keyType ≠ ApiKeyType.secret
    ∧ exceptIsOk (handleDbPost [usersTable] true pubCtx ("users")
        ⟨[[("name", JsValue.scalar ("John"))]], some true⟩).1 = true
    ∧ isForbidden (handleDbPost [usersTable] true pubCtx ("users")
        ⟨[[("name", JsValue.scalar ("John"))]], some true⟩).1 = false := by
  refine ⟨by decide, by decide, by decide⟩

/-- C3 as amended: only the storage listing endpoint enforces the
secret-key tier — any non-secret key gets Forbidden there and a
success implies a secret key — while the mutating db handlers (POST,
PATCH, DELETE) behave identically whatever the key type of the
authenticated context. -/
theorem c3_secret_gating :
    (∀ (ctx : ProjectContext) (q : StorageListQuery), ctx.keyType ≠ ApiKeyType.secret →
      handleStorageList ctx q
        = Except.error (CrudError.forbidden ("Secret key required to list objects")))
    ∧ (∀ (ctx : ProjectContext) (q : StorageListQuery) (r : StorageListCall),
        handleStorageList ctx q = Except.ok r → ctx.keyType = ApiKeyType.secret)
    ∧ (∀ tables cacheHit (ctx : ProjectContext) tableParam body,
        handleDbPost tables cacheHit ctx tableParam body
          = handleDbPost tables cacheHit ⟨ctx.projectId, ApiKeyType.secret⟩ tableParam body)
    ∧ (∀ tables cacheHit (ctx : ProjectContext) tableParam body q,
        handleDbPatch tables cacheHit ctx tableParam body q
          = handleDbPatch tables cacheHit ⟨ctx.projectId, ApiKeyType.secret⟩ tableParam body q)
    ∧ (∀ tables cacheHit (ctx : ProjectContext) tableParam q,
        handleDbDelete tables cacheHit ctx tableParam q
          = handleDbDelete tables cacheHit ⟨ctx.projectId, ApiKeyType.secret⟩ tableParam q) := by
  have hforb : ∀ (ctx : ProjectContext) (q : StorageListQuery),
      ctx.keyType ≠ ApiKeyType.secret →
      handleStorageList ctx q
        = Except.error (CrudError.forbidden ("Secret key required to list objects")) := by
    intro ctx q h
    unfold handleStorageList
    rw [if_pos h]
  refine ⟨hforb, ?_, fun _ _ _ _ _ => rfl, fun _ _ _ _ _ _ => rfl, fun _ _ _ _ _ => rfl⟩
  intro ctx q r h
  by_contra hne
  rw [hforb ctx q hne] at h
  exact Except.noConfusion h

/-- Witness for C3 as amended: the concrete publishable-key context is
refused on storage list, and a concrete POST is key-type-blind. -/
theorem c3_secret_gating_witness :
    handleStorageList pubCtx ⟨some ("uploads"), none, none⟩
      = Except.error (CrudError.forbidden ("Secret key required to list objects"))
    ∧ handleDbPost [usersTable] true pubCtx ("users")
        ⟨[[("name", JsValue.scalar ("John"))]], some true⟩
      = handleDbPost [usersTable] true ⟨pubCtx.projectId, ApiKeyType.secret⟩ ("users")
        ⟨[[("name", JsValue.scalar ("John"))]], some true⟩ :=
  ⟨c3_secret_gating.1 pubCtx ⟨some ("uploads"), none, none⟩ (by decide),
   c3_secret_gating.2.2.1 [usersTable] true pubCtx ("users")
     ⟨[[("name", JsValue.scalar ("John"))]], some true⟩⟩

/-- Projection: the inlined LIMIT bound of a successful compilation. -/
def selLimitOf {α : Type} : Except CrudError (SelectCompiled α) → Option Int
  | Except.ok res => some res.limit
  | Except.error _ => none

/-- Projection: the inlined OFFSET bound of a successful compilation. -/
def selOffsetOf {α : Type} : Except CrudError (SelectCompiled α) → Option Int
  | Except.ok res => some res.offset
  | Except.error _ => none

/-- Projection: the statement text of a successful compilation. -/
def selSqlOf {α : Type} : Except CrudError (SelectCompiled α) → Option String
  | Except.ok res => some res.sql
  | Except.error _ => none

/-- C10 counterexample: `?limit=-5&offset=-3` flows straight through —
`-5 || 100` is `-5` in JavaScript, `Math.min(-5, 1000)` is `-5` — so
the generated SQL ends in `LIMIT -5 OFFSET -3`, refuting the claimed
`limit ∈ [1, 1000]`, `offset ≥ 0` bounds. -/
theorem c10_counterexample :
    selLimitOf (handleDbGet startupCfg [usersTable] true pubCtx ("users")
      ⟨[("limit", "-5"), ("offset", "-3")]⟩).1 = some (-5)
    ∧ selOffsetOf (handleDbGet startupCfg [usersTable] true pubCtx ("users")
      ⟨[("limit", "-5"), ("offset", "-3")]⟩).1 = some (-3)
    ∧ selSqlOf (handleDbGet startupCfg [usersTable] true pubCtx ("users")
      ⟨[("limit", "-5"), ("offset", "-3")]⟩).1
      = some ("\n      SELECT *\n      FROM \"users\"\n      \n      \n      LIMIT -5 OFFSET -3\n    ") := by
  refine ⟨by decide, by decide, by rfl⟩

/-- Helper: a successful GET handler run implies a valid table name
and a successful compilation over the parsed options. -/
theorem handleDbGet_ok_elim {cfg : QueryConfig} {tables : List TableInfo} {cacheHit : Bool}
    {ctx : ProjectContext} {tableParam : String} {q : QueryString} {res : SelectCompiled String}
    (h : (handleDbGet cfg tables cacheHit ctx tableParam q).1 = Except.ok res) :
    tableNameValid tableParam = true
    ∧ crudSelect cfg tables tableParam
        { select := some (parseSelect (qget q ("select")))
          order := parseOrder (qget q ("order"))
          limit := parseOptionalInt (qget q ("limit"))
          offset := parseOptionalInt (qget q ("offset"))
          filters := some (parseFilters q.entries) } = Except.ok res := by
  by_cases htn : tableNameValid tableParam = true
  · refine ⟨htn, ?_⟩
    unfold handleDbGet at h
    rw [htn] at h
    simp only [Bool.not_true, Bool.false_eq_true, if_false] at h
    cases hc : crudSelect cfg tables tableParam
        { select := some (parseSelect (qget q ("select")))
          order := parseOrder (qget q ("order"))
          limit := parseOptionalInt (qget q ("limit"))
          offset := parseOptionalInt (qget q ("offset"))
          filters := some (parseFilters q.entries) } with
    | error e => rw [hc] at h; exact Except.noConfusion h
    | ok r => rw [hc] at h; simpa using h
  · exfalso
    unfold handleDbGet at h
    have htn' : tableNameValid tableParam = false := by
      cases hv : tableNameValid tableParam <;> simp_all
    rw [htn'] at h
    simp only [Bool.not_false, if_true] at h
    exact Except.noConfusion h

/-- Helper: anatomy of a successful `crudSelect` compilation. -/
theorem crudSelect_ok_elim {α : Type} {cfg : QueryConfig} {tables : List TableInfo}
    {table : String} {opts : SelectOptions α} {res : SelectCompiled α}
    (h : crudSelect cfg tables table opts = Except.ok res) :
    ∃ ti, findTable tables table = some ti
      ∧ checkOrderColumn (allowedColumnsOf ti) opts.order = Except.ok ()
      ∧ checkFilterColumns (allowedColumnsOf ti) opts.filters = Except.ok ()
      ∧ res = ⟨"\n      SELECT "
            ++ buildSelectColumns (opts.select.getD SelectList.star) (allowedColumnsOf ti)
            ++ "\n      FROM \"" ++ table ++ "\"\n      "
            ++ (buildWhereClause (opts.filters.getD []) 1).1 ++ "\n      "
            ++ buildOrderClause opts.order ++ "\n      LIMIT "
            ++ toString (min (jsOrInt opts.limit cfg.defaultRowsLimit) cfg.maxRowsPerQuery)
            ++ " OFFSET " ++ toString (jsOrInt opts.offset 0) ++ "\n    ",
          (buildWhereClause (opts.filters.getD []) 1).2,
          min (jsOrInt opts.limit cfg.defaultRowsLimit) cfg.maxRowsPerQuery,
          jsOrInt opts.offset 0⟩ := by
  unfold crudSelect at h
  cases hft : findTable tables table with
  | none => rw [hft] at h; exact Except.noConfusion h
  | some ti =>
    rw [hft] at h
    dsimp only at h
    refine ⟨ti, rfl, ?_⟩
    cases ho : checkOrderColumn (allowedColumnsOf ti) opts.order with
    | error e => rw [ho] at h; exact Except.noConfusion h
    | ok u =>
      cases u
      rw [ho] at h
      dsimp only at h
      refine ⟨rfl, ?_⟩
      cases hf : checkFilterColumns (allowedColumnsOf ti) opts.filters with
      | error e => rw [hf] at h; exact Except.noConfusion h
      | ok u' =>
        cases u'
        rw [hf] at h
        dsimp only at h
        exact ⟨rfl, (Except.ok.inj h).symm⟩

/-- C10 as amended: the effective limit never exceeds the configured
cap and defaults to `min(default, cap)` when absent (or NaN or 0), the
effective offset defaults to 0 — but any other parsed value, negative
ones included, flows through into the inlined LIMIT/OFFSET untouched
(only the upper side is capped). -/
theorem c10_limit_offset_bounds (cfg : QueryConfig) (tables : List TableInfo)
    (cacheHit : Bool) (ctx : ProjectContext) (tableParam : String) (q : QueryString)
    (res : SelectCompiled String)
    (h : (handleDbGet cfg tables cacheHit ctx tableParam q).1 = Except.ok res) :
    res.limit ≤ cfg.maxRowsPerQuery
    ∧ (parseOptionalInt (qget q ("limit")) = none →
        res.limit = min cfg.defaultRowsLimit cfg.maxRowsPerQuery)
    ∧ (∀ n : Int, parseOptionalInt (qget q ("limit")) = some (JsNum.int n) → n ≠ 0 →
        res.limit = min n cfg.maxRowsPerQuery)
    ∧ (parseOptionalInt (qget q ("offset")) = none → res.offset = 0)
    ∧ (∀ n : Int, parseOptionalInt (qget q ("offset")) = some (JsNum.int n) → n ≠ 0 →
        res.offset = n) := by
  obtain ⟨htn, hsel⟩ := handleDbGet_ok_elim h
  obtain ⟨ti, hft, ho, hf, hres⟩ := crudSelect_ok_elim hsel
  subst hres
  refine ⟨min_le_right _ _, ?_, ?_, ?_, ?_⟩
  · intro hnone
    simp [hnone, jsOrInt]
  · intro n hn hne
    simp [hn, jsOrInt, hne]
  · intro hnone
    simp [hnone, jsOrInt]
  · intro n hn hne
    simp [hn, jsOrInt, hne]

/-- Concrete compiled result for the C10 witness request
(`?limit=7`, no offset). -/
def c10WitnessRes : SelectCompiled String :=
  match (handleDbGet startupCfg [usersTable] true pubCtx ("users")
      ⟨[("limit", "7")]⟩).1 with
  | Except.ok r => r
  | Except.error _ => ⟨"", [], 0, 0⟩

/-- Witness for C10 as amended at `?limit=7`. -/
theorem c10_limit_offset_bounds_witness :
    c10WitnessRes.limit ≤ startupCfg.maxRowsPerQuery
    ∧ c10WitnessRes.limit = min 7 startupCfg.maxRowsPerQuery
    ∧ c10WitnessRes.offset = 0 :=
  have h : (handleDbGet startupCfg [usersTable] true pubCtx ("users")
      ⟨[("limit", "7")]⟩).1 = Except.ok c10WitnessRes := by rfl
  have hb := c10_limit_offset_bounds startupCfg [usersTable] true pubCtx ("users")
    ⟨[("limit", "7")]⟩ c10WitnessRes h
  ⟨hb.1, hb.2.2.1 7 (by rfl) (by decide), hb.2.2.2.1 (by rfl)⟩

/-- Client-supplied values of a filter list in emission order: one
value per scalar condition, the spread elements for a non-empty `in`
list, nothing for the skipped `in` shapes.  This is the specification
of the parameter vector `buildWhereClause` emits. -/
def whereFlatten {α : Type} : List (ParsedFilter α) → List (JsValue α)
  | [] => []
  | f :: rest =>
    match f.operator, f.value with
    | FilterOperator.inList, JsValue.arr xs =>
      (if xs.length > 0 then xs.map JsValue.scalar else []) ++ whereFlatten rest
    | FilterOperator.inList, JsValue.scalar _ => whereFlatten rest
    | _, _ => f.value :: whereFlatten rest

/-- Value-free shape of a filter list: column, operator, and arity of
an `in` list (`none` for a scalar value). -/
def filtersShape {α : Type} (fs : List (ParsedFilter α)) :
    List (String × FilterOperator × Option Nat) :=
  fs.map (fun f => (f.column, f.operator,
    match f.value with
    | JsValue.scalar _ => none
    | JsValue.arr xs => some xs.length))

/-- Condition strings of a WHERE clause as a function of the shape
alone — the specification showing the statement text never depends on
the values themselves. -/
def whereCondsOfShape : List (String × FilterOperator × Option Nat) → Nat → List String
  | [], _ => []
  | (column, oper, ar) :: rest, paramIndex =>
    let quotedColumn := "\"" ++ column ++ "\""
    match oper with
    | FilterOperator.eq =>
      (quotedColumn ++ " = $" ++ toString paramIndex) :: whereCondsOfShape rest (paramIndex + 1)
    | FilterOperator.neq =>
      (quotedColumn ++ " != $" ++ toString paramIndex) :: whereCondsOfShape rest (paramIndex + 1)
    | FilterOperator.lt =>
      (quotedColumn ++ " < $" ++ toString paramIndex) :: whereCondsOfShape rest (paramIndex + 1)
    | FilterOperator.lte =>
      (quotedColumn ++ " <= $" ++ toString paramIndex) :: whereCondsOfShape rest (paramIndex + 1)
    | FilterOperator.gt =>
      (quotedColumn ++ " > $" ++ toString paramIndex) :: whereCondsOfShape rest (paramIndex + 1)
    | FilterOperator.gte =>
      (quotedColumn ++ " >= $" ++ toString paramIndex) :: whereCondsOfShape rest (paramIndex + 1)
    | FilterOperator.like =>
      (quotedColumn ++ " LIKE $" ++ toString paramIndex) :: whereCondsOfShape rest (paramIndex + 1)
    | FilterOperator.ilike =>
      (quotedColumn ++ " ILIKE $" ++ toString paramIndex) :: whereCondsOfShape rest (paramIndex + 1)
    | FilterOperator.inList =>
      match ar with
      | some n =>
        if n > 0 then
          (quotedColumn ++ " IN (" ++ inPlaceholders paramIndex n ++ ")")
            :: whereCondsOfShape rest (paramIndex + n)
        else whereCondsOfShape rest paramIndex
      | none => whereCondsOfShape rest paramIndex

/-- Full WHERE clause string as a function of the shape alone. -/
def whereClauseOfShape (shape : List (String × FilterOperator × Option Nat))
    (startParamIndex : Nat) : String :=
  if shape.length = 0 then ""
  else
    let conds := whereCondsOfShape shape startParamIndex
    if conds.length > 0 then "WHERE " ++ joinSep (" AND ") conds else ""

/-- Helper: the condition strings of `whereParts` are computed from
the shape alone. -/
theorem whereParts_fst_eq_shape {α : Type} :
    ∀ (fs : List (ParsedFilter α)) (i : Nat),
      (whereParts fs i).1 = whereCondsOfShape (filtersShape fs) i := by
  intro fs
  induction fs with
  | nil => intro i; rfl
  | cons f rest ih =>
    intro i
    cases hop : f.operator <;>
      simp only [whereParts, filtersShape, List.map_cons, whereCondsOfShape, hop] <;>
      try exact congrArg _ (ih _)
    · cases hv : f.value with
      | scalar a => simpa [whereCondsOfShape, filtersShape] using ih i
      | arr xs =>
        by_cases hxs : xs.length > 0
        · simp only [hxs, if_true]
          exact congrArg _ (ih _)
        · simp only [hxs, if_false]
          exact ih i

/-- Helper: the parameter vector of `whereParts` is exactly the
flattened client values. -/
theorem whereParts_snd_eq_flatten {α : Type} :
    ∀ (fs : List (ParsedFilter α)) (i : Nat), (whereParts fs i).2 = whereFlatten fs := by
  intro fs
  induction fs with
  | nil => intro i; rfl
  | cons f rest ih =>
    intro i
    cases hop : f.operator <;>
      simp only [whereParts, whereFlatten, hop] <;> try exact congrArg _ (ih _)
    · cases hv : f.value with
      | scalar a => simpa using ih i
      | arr xs =>
        by_cases hxs : xs.length > 0
        · simp only [hxs, if_true]
          exact congrArg _ (ih _)
        · simp only [hxs, if_false]
          simpa [hxs] using ih i

/-- Helper: the clause string of `buildWhereClause` is a function of
the shape alone. -/
theorem buildWhereClause_fst_eq_shape {α : Type} (fs : List (ParsedFilter α)) (i : Nat) :
    (buildWhereClause fs i).1 = whereClauseOfShape (filtersShape fs) i := by
  unfold buildWhereClause whereClauseOfShape
  have hlen : (filtersShape fs).length = fs.length := List.length_map _ _
  rw [hlen]
  by_cases h : fs.length = 0
  · rw [if_pos h, if_pos h]
  · rw [if_neg h, if_neg h]
    dsimp only
    rw [whereParts_fst_eq_shape]

/-- Helper: the parameter vector of `buildWhereClause` is exactly the
flattened client values. -/
theorem buildWhereClause_snd_eq_flatten {α : Type} (fs : List (ParsedFilter α)) (i : Nat) :
    (buildWhereClause fs i).2 = whereFlatten fs := by
  unfold buildWhereClause
  by_cases h : fs.length = 0
  · have hnil : fs = [] := List.length_eq_zero.mp h
    subst hnil
    rfl
  · rw [if_neg h]
    dsimp only
    rw [whereParts_snd_eq_flatten]

/-- Helper: the order check succeeds exactly when any present order
column is allowed. -/
theorem checkOrderColumn_ok_iff (allowed : List String) (ord : Option ParsedOrder) :
    checkOrderColumn allowed ord = Except.ok () ↔
      ∀ o, ord = some o → allowed.contains o.column = true := by
  cases ord with
  | none => simp [checkOrderColumn]
  | some o =>
    by_cases h : allowed.contains o.column = true
    · simp [checkOrderColumn, h]
    · have h' : allowed.contains o.column = false := by
        cases hv : allowed.contains o.column <;> simp_all
      simp [checkOrderColumn, h']

/-- Helper: the filter check succeeds exactly when every filter column
is allowed. -/
theorem checkFilterColumns_ok_iff {α : Type} (allowed : List String)
    (fs : List (ParsedFilter α)) :
    checkFilterColumns allowed (some fs) = Except.ok () ↔
      ∀ f ∈ fs, allowed.contains f.column = true := by
  unfold checkFilterColumns
  dsimp only
  cases hfind : fs.find? (fun f => ! allowed.contains f.column) with
  | none =>
    dsimp only
    constructor
    · intro _ f hf
      have := List.find?_eq_none.mp hfind f hf
      simpa using this
    · intro _
      rfl
  | some f =>
    dsimp only
    have hpred := List.find?_some hfind
    have hmem : f ∈ fs := List.mem_of_find?_eq_some hfind
    constructor
    · intro h
      exact Except.noConfusion h
    · intro hall
      have heq := hall f hmem
      simp only [heq] at hpred
      exact Bool.noConfusion hpred

/-- Placeholder list `$i, $i+1, …` of a given length, as the
INSERT-row loop builds it. -/
def placeholdersRange : Nat → Nat → List String
  | _, 0 => []
  | i, Nat.succ m => ("$" ++ toString i) :: placeholdersRange (i + 1) m

/-- Helper: when every key of the row is allowed, the INSERT row parts
are the quoted keys, the body values in order, and the sequential
placeholders — the statement fragments depend on the keys alone. -/
theorem insertRowParts_ok_of_all {α : Type} {allowed : List String} :
    ∀ (row : List (String × JsValue α)),
      (∀ kv ∈ row, allowed.contains kv.1 = true) → ∀ i,
      insertRowParts allowed row i
        = Except.ok (row.map (fun kv => "\"" ++ kv.1 ++ "\""), row.map (fun kv => kv.2),
            placeholdersRange i row.length) := by
  intro row
  induction row with
  | nil => intro _ i; rfl
  | cons kv rest ih =>
    intro hall i
    have hc : allowed.contains kv.1 = true := hall kv (List.mem_cons_self kv rest)
    have hrest : ∀ kv' ∈ rest, allowed.contains kv'.1 = true :=
      fun kv' h => hall kv' (List.mem_cons_of_mem kv h)
    cases kv with
    | mk col val =>
      simp only [insertRowParts, hc, if_true, ih hrest (i + 1), List.map_cons,
        List.length_cons, placeholdersRange]

/-- Helper: a row with a disallowed key makes the INSERT row parts
fail. -/
theorem insertRowParts_err_of_bad {α : Type} {allowed : List String} :
    ∀ (row : List (String × JsValue α)),
      (∃ kv ∈ row, allowed.contains kv.1 = false) → ∀ i,
      exceptIsOk (insertRowParts allowed row i) = false := by
  intro row
  induction row with
  | nil => intro h; exact absurd h (by simp)
  | cons kv rest ih =>
    intro hbad i
    cases kv with
    | mk col val =>
      by_cases hc : allowed.contains col = true
      · have hbad' : ∃ kv ∈ rest, allowed.contains kv.1 = false := by
          obtain ⟨kv', hkv', hf⟩ := hbad
          rcases List.mem_cons.mp hkv' with he | hm
          · exfalso
            rw [he] at hf
            rw [hc] at hf
            exact Bool.noConfusion hf
          · exact ⟨kv', hm, hf⟩
        have := ih hbad' (i + 1)
        simp only [insertRowParts, hc, if_true]
        cases hr : insertRowParts allowed rest (i + 1) with
        | error e => rfl
        | ok r => rw [hr] at this; exact absurd this (by simp [exceptIsOk])
      · have hcond : ¬ (allowed.contains col = true) := hc
        simp only [insertRowParts]
        rw [if_neg hcond]
        rfl

/-- Helper: success of the INSERT row parts is exactly key validity. -/
theorem insertRowParts_isOk_iff {α : Type} (allowed : List String)
    (row : List (String × JsValue α)) (i : Nat) :
    exceptIsOk (insertRowParts allowed row i) = true ↔
      ∀ kv ∈ row, allowed.contains kv.1 = true := by
  constructor
  · intro h
    by_contra hnot
    push_neg at hnot
    obtain ⟨kv, hkv, hne⟩ := hnot
    have hf : allowed.contains kv.1 = false := by
      cases hv : allowed.contains kv.1
      · rfl
      · exact absurd hv hne
    rw [insertRowParts_err_of_bad row ⟨kv, hkv, hf⟩ i] at h
    exact Bool.noConfusion h
  · intro hall
    rw [insertRowParts_ok_of_all row hall i]
    rfl

/-- SET-clause strings as a function of the body keys alone. -/
def setClausesOfKeys : List String → Nat → List String
  | [], _ => []
  | k :: ks, i => ("\"" ++ k ++ "\" = $" ++ toString i) :: setClausesOfKeys ks (i + 1)

/-- Helper: when every body key is allowed, the SET-clause parts are
the rendered key clauses, the body values in order, and the advanced
parameter index. -/
theorem setClauseParts_ok_of_all {α : Type} {allowed : List String} :
    ∀ (values : List (String × JsValue α)),
      (∀ kv ∈ values, allowed.contains kv.1 = true) → ∀ i,
      setClauseParts allowed values i
        = Except.ok (setClausesOfKeys (values.map (fun kv => kv.1)) i,
            values.map (fun kv => kv.2), i + values.length) := by
  intro values
  induction values with
  | nil => intro _ i; rfl
  | cons kv rest ih =>
    intro hall i
    have hc : allowed.contains kv.1 = true := hall kv (List.mem_cons_self kv rest)
    have hrest : ∀ kv' ∈ rest, allowed.contains kv'.1 = true :=
      fun kv' h => hall kv' (List.mem_cons_of_mem kv h)
    cases kv with
    | mk col val =>
      have hidx : (i + 1) + rest.length = i + (rest.length + 1) := by omega
      simp only [setClauseParts, hc, if_true, ih hrest (i + 1), List.map_cons,
        List.length_cons, setClausesOfKeys, hidx]

/-- Helper: a disallowed body key makes the SET-clause parts fail. -/
theorem setClauseParts_err_of_bad {α : Type} {allowed : List String} :
    ∀ (values : List (String × JsValue α)),
      (∃ kv ∈ values, allowed.contains kv.1 = false) → ∀ i,
      exceptIsOk (setClauseParts allowed values i) = false := by
  intro values
  induction values with
  | nil => intro h; exact absurd h (by simp)
  | cons kv rest ih =>
    intro hbad i
    cases kv with
    | mk col val =>
      by_cases hc : allowed.contains col = true
      · have hbad' : ∃ kv ∈ rest, allowed.contains kv.1 = false := by
          obtain ⟨kv', hkv', hf⟩ := hbad
          rcases List.mem_cons.mp hkv' with he | hm
          · exfalso
            rw [he] at hf
            rw [hc] at hf
            exact Bool.noConfusion hf
          · exact ⟨kv', hm, hf⟩
        have := ih hbad' (i + 1)
        simp only [setClauseParts, hc, if_true]
        cases hr : setClauseParts allowed rest (i + 1) with
        | error e => rfl
        | ok r => rw [hr] at this; exact absurd this (by simp [exceptIsOk])
      · have hcond : ¬ (allowed.contains col = true) := hc
        simp only [setClauseParts]
        rw [if_neg hcond]
        rfl

/-- Helper: success of the SET-clause parts is exactly key validity. -/
theorem setClauseParts_isOk_iff {α : Type} (allowed : List String)
    (values : List (String × JsValue α)) (i : Nat) :
    exceptIsOk (setClauseParts allowed values i) = true ↔
      ∀ kv ∈ values, allowed.contains kv.1 = true := by
  constructor
  · intro h
    by_contra hnot
    push_neg at hnot
    obtain ⟨kv, hkv, hne⟩ := hnot
    have hf : allowed.contains kv.1 = false := by
      cases hv : allowed.contains kv.1
      · rfl
      · exact absurd hv hne
    rw [setClauseParts_err_of_bad values ⟨kv, hkv, hf⟩ i] at h
    exact Bool.noConfusion h
  · intro hall
    rw [setClauseParts_ok_of_all values hall i]
    rfl

/-- INSERT statement text as a function of the body keys alone. -/
def insertSqlOfKeys (table : String) (returning : Bool) (ks : List String) : String :=
  "\n        INSERT INTO \"" ++ table ++ "\" ("
    ++ joinSep (", ") (ks.map (fun k => "\"" ++ k ++ "\"")) ++ ")\n        VALUES ("
    ++ joinSep (", ") (placeholdersRange 1 ks.length) ++ ")\n        "
    ++ (if returning then "RETURNING *" else "") ++ "\n      "

/-- Helper: with every key allowed, the row loop compiles each row to
the key-determined INSERT text paired with exactly that row's values. -/
theorem crudInsertRows_ok_of_all {α : Type} {table : String} {allowed : List String}
    {returning : Bool} :
    ∀ (rows : List (List (String × JsValue α))),
      (∀ row ∈ rows, ∀ kv ∈ row, allowed.contains kv.1 = true) →
      crudInsertRows table allowed returning rows
        = Except.ok (rows.map (fun row =>
            (insertSqlOfKeys table returning (row.map (fun kv => kv.1)),
             row.map (fun kv => kv.2)))) := by
  intro rows
  induction rows with
  | nil => intro _; rfl
  | cons row rest ih =>
    intro hall
    have hrow := hall row (List.mem_cons_self row rest)
    have hrest : ∀ row' ∈ rest, ∀ kv ∈ row', allowed.contains kv.1 = true :=
      fun row' h => hall row' (List.mem_cons_of_mem row h)
    simp only [crudInsertRows, crudInsertRow, insertRowParts_ok_of_all row hrow 1,
      ih hrest, List.map_cons]
    simp only [insertSqlOfKeys, List.map_map, List.length_map]
    rfl

/-- Helper: a disallowed key in any row fails the row loop. -/
theorem crudInsertRows_err_of_bad {α : Type} {table : String} {allowed : List String}
    {returning : Bool} :
    ∀ (rows : List (List (String × JsValue α))),
      (∃ row ∈ rows, ∃ kv ∈ row, allowed.contains kv.1 = false) →
      exceptIsOk (crudInsertRows table allowed returning rows) = false := by
  intro rows
  induction rows with
  | nil => intro h; exact absurd h (by simp)
  | cons row rest ih =>
    intro hbad
    cases h1 : crudInsertRow table allowed returning row with
    | error e => simp only [crudInsertRows, h1]; rfl
    | ok st =>
      have hrowok : ∀ kv ∈ row, allowed.contains kv.1 = true := by
        apply (insertRowParts_isOk_iff allowed row 1).mp
        unfold crudInsertRow at h1
        cases hp : insertRowParts allowed row 1 with
        | error e => rw [hp] at h1; exact Except.noConfusion h1
        | ok parts => rfl
      have hbad' : ∃ row' ∈ rest, ∃ kv ∈ row', allowed.contains kv.1 = false := by
        obtain ⟨row', hrow', kv, hkv, hf⟩ := hbad
        rcases List.mem_cons.mp hrow' with he | hm
        · exfalso
          rw [he] at hkv
          have := hrowok kv hkv
          rw [this] at hf
          exact Bool.noConfusion hf
        · exact ⟨row', hm, kv, hkv, hf⟩
      have := ih hbad'
      simp only [crudInsertRows, h1]
      cases hr : crudInsertRows table allowed returning rest with
      | error e => rfl
      | ok sts => rw [hr] at this; exact absurd this (by simp [exceptIsOk])

/-- Helper: success of the row loop is exactly key validity of every
row. -/
theorem crudInsertRows_isOk_iff {α : Type} (table : String) (allowed : List String)
    (returning : Bool) (rows : List (List (String × JsValue α))) :
    exceptIsOk (crudInsertRows table allowed returning rows) = true ↔
      ∀ row ∈ rows, ∀ kv ∈ row, allowed.contains kv.1 = true := by
  constructor
  · intro h
    by_contra hnot
    push_neg at hnot
    obtain ⟨row, hrow, kv, hkv, hne⟩ := hnot
    have hf : allowed.contains kv.1 = false := by
      cases hv : allowed.contains kv.1
      · rfl
      · exact absurd hv hne
    rw [crudInsertRows_err_of_bad rows ⟨row, hrow, kv, hkv, hf⟩] at h
    exact Bool.noConfusion h
  · intro hall
    rw [crudInsertRows_ok_of_all rows hall]
    rfl

/-- Helper: anatomy of a successful `crudInsert`. -/
theorem crudInsert_ok_elim {α : Type} {tables : List TableInfo} {table : String}
    {rows : List (List (String × JsValue α))} {returning : Bool}
    {res : List (String × List (JsValue α))}
    (h : crudInsert tables table rows returning = Except.ok res) :
    ∃ ti, findTable tables table = some ti
      ∧ (∀ row ∈ rows, ∀ kv ∈ row, (allowedColumnsOf ti).contains kv.1 = true)
      ∧ res = rows.map (fun row =>
          (insertSqlOfKeys table returning (row.map (fun kv => kv.1)),
           row.map (fun kv => kv.2))) := by
  unfold crudInsert at h
  cases hft : findTable tables table with
  | none => rw [hft] at h; exact Except.noConfusion h
  | some ti =>
    rw [hft] at h
    dsimp only at h
    have hall : ∀ row ∈ rows, ∀ kv ∈ row, (allowedColumnsOf ti).contains kv.1 = true := by
      apply (crudInsertRows_isOk_iff table (allowedColumnsOf ti) returning rows).mp
      rw [h]
      rfl
    refine ⟨ti, rfl, hall, ?_⟩
    rw [crudInsertRows_ok_of_all rows hall] at h
    exact (Except.ok.inj h).symm

/-- Helper: anatomy of a successful `crudUpdate`. -/
theorem crudUpdate_ok_elim {α : Type} {tables : List TableInfo} {table : String}
    {vals : List (String × JsValue α)} {fs : List (ParsedFilter α)} {returning : Bool}
    {st : String × List (JsValue α)}
    (h : crudUpdate tables table vals fs returning = Except.ok st) :
    ∃ ti, findTable tables table = some ti
      ∧ checkFilterColumns (allowedColumnsOf ti) (some fs) = Except.ok ()
      ∧ (∀ kv ∈ vals, (allowedColumnsOf ti).contains kv.1 = true)
      ∧ st = ("\n      UPDATE \"" ++ table ++ "\"\n      SET "
          ++ joinSep (", ") (setClausesOfKeys (vals.map (fun kv => kv.1)) 1) ++ "\n      "
          ++ (buildWhereClause fs (1 + vals.length)).1 ++ "\n      "
          ++ (if returning then "RETURNING *" else "") ++ "\n    ",
          vals.map (fun kv => kv.2) ++ (buildWhereClause fs (1 + vals.length)).2) := by
  unfold crudUpdate at h
  cases hft : findTable tables table with
  | none => rw [hft] at h; exact Except.noConfusion h
  | some ti =>
    rw [hft] at h
    dsimp only at h
    refine ⟨ti, rfl, ?_⟩
    cases hcf : checkFilterColumns (allowedColumnsOf ti) (some fs) with
    | error e => rw [hcf] at h; exact Except.noConfusion h
    | ok u =>
      cases u
      rw [hcf] at h
      dsimp only at h
      refine ⟨rfl, ?_⟩
      cases hsp : setClauseParts (allowedColumnsOf ti) vals 1 with
      | error e => rw [hsp] at h; exact Except.noConfusion h
      | ok parts =>
        have hall : ∀ kv ∈ vals, (allowedColumnsOf ti).contains kv.1 = true := by
          apply (setClauseParts_isOk_iff (allowedColumnsOf ti) vals 1).mp
          rw [hsp]
          rfl
        have hX := setClauseParts_ok_of_all vals hall 1
        have hparts : parts
            = (setClausesOfKeys (vals.map (fun kv => kv.1)) 1,
               vals.map (fun kv => kv.2), 1 + vals.length) := by
          rw [hX] at hsp
          exact (Except.ok.inj hsp).symm
        rw [hsp] at h
        dsimp only at h
        rw [hparts] at h
        exact ⟨hall, (Except.ok.inj h).symm⟩

/-- Helper: anatomy of a successful `crudDelete`. -/
theorem crudDelete_ok_elim {α : Type} {tables : List TableInfo} {table : String}
    {fs : List (ParsedFilter α)} {st : String × List (JsValue α)}
    (h : crudDelete tables table fs = Except.ok st) :
    ∃ ti, findTable tables table = some ti
      ∧ checkFilterColumns (allowedColumnsOf ti) (some fs) = Except.ok ()
      ∧ st = ("DELETE FROM \"" ++ table ++ "\" " ++ (buildWhereClause fs 1).1,
          (buildWhereClause fs 1).2) := by
  unfold crudDelete at h
  cases hft : findTable tables table with
  | none => rw [hft] at h; exact Except.noConfusion h
  | some ti =>
    rw [hft] at h
    dsimp only at h
    refine ⟨ti, rfl, ?_⟩
    cases hcf : checkFilterColumns (allowedColumnsOf ti) (some fs) with
    | error e => rw [hcf] at h; exact Except.noConfusion h
    | ok u =>
      cases u
      rw [hcf] at h
      dsimp only at h
      exact ⟨rfl, (Except.ok.inj h).symm⟩

/-- Helper: the optional filter check succeeds exactly when any
present filter list is fully allowed. -/
theorem checkFilterColumns_ok_iff_opt {α : Type} (allowed : List String)
    (ofs : Option (List (ParsedFilter α))) :
    checkFilterColumns allowed ofs = Except.ok () ↔
      ∀ fs, ofs = some fs → ∀ f ∈ fs, allowed.contains f.column = true := by
  cases ofs with
  | none => simp [checkFilterColumns]
  | some fs =>
    rw [checkFilterColumns_ok_iff]
    constructor
    · intro h fs' heq
      cases heq
      exact h
    · intro h
      exact h fs rfl

/-- Helper: `findTable` returns a record bearing the requested name. -/
theorem findTable_eq {tables : List TableInfo} {table : String} {ti : TableInfo}
    (h : findTable tables table = some ti) : ti.tableName = table := by
  have := List.find?_some h
  simpa using this

/-- Helper: success of `crudSelect` depends only on the table, the
order column and the filter columns — the select list plays no role. -/
theorem crudSelect_isOk_iff {α : Type} (cfg : QueryConfig) (tables : List TableInfo)
    (table : String) (opts : SelectOptions α) :
    exceptIsOk (crudSelect cfg tables table opts) = true ↔
      ∃ ti, findTable tables table = some ti
        ∧ (∀ o, opts.order = some o → (allowedColumnsOf ti).contains o.column = true)
        ∧ (∀ fs, opts.filters = some fs →
            ∀ f ∈ fs, (allowedColumnsOf ti).contains f.column = true) := by
  constructor
  · intro h
    cases hc : crudSelect cfg tables table opts with
    | error e => rw [hc] at h; exact Bool.noConfusion h
    | ok res =>
      obtain ⟨ti, hft, ho, hf, _⟩ := crudSelect_ok_elim hc
      exact ⟨ti, hft, (checkOrderColumn_ok_iff _ _).mp ho,
        (checkFilterColumns_ok_iff_opt _ _).mp hf⟩
  · intro ⟨ti, hft, ho, hf⟩
    unfold crudSelect
    rw [hft]
    dsimp only
    rw [(checkOrderColumn_ok_iff _ _).mpr ho]
    dsimp only
    rw [(checkFilterColumns_ok_iff_opt _ _).mpr hf]
    rfl

/-- Helper: success of `crudInsert` is table existence plus validity
of every body key. -/
theorem crudInsert_isOk_iff {α : Type} (tables : List TableInfo) (table : String)
    (rows : List (List (String × JsValue α))) (returning : Bool) :
    exceptIsOk (crudInsert tables table rows returning) = true ↔
      ∃ ti, findTable tables table = some ti
        ∧ ∀ row ∈ rows, ∀ kv ∈ row, (allowedColumnsOf ti).contains kv.1 = true := by
  constructor
  · intro h
    cases hc : crudInsert tables table rows returning with
    | error e => rw [hc] at h; exact Bool.noConfusion h
    | ok res =>
      obtain ⟨ti, hft, hall, _⟩ := crudInsert_ok_elim hc
      exact ⟨ti, hft, hall⟩
  · intro ⟨ti, hft, hall⟩
    unfold crudInsert
    rw [hft]
    dsimp only
    rw [crudInsertRows_ok_of_all rows hall]
    rfl

/-- Helper: success of `crudUpdate` is table existence plus validity
of every filter column and every body key. -/
theorem crudUpdate_isOk_iff {α : Type} (tables : List TableInfo) (table : String)
    (vals : List (String × JsValue α)) (fs : List (ParsedFilter α)) (returning : Bool) :
    exceptIsOk (crudUpdate tables table vals fs returning) = true ↔
      ∃ ti, findTable tables table = some ti
        ∧ (∀ f ∈ fs, (allowedColumnsOf ti).contains f.column = true)
        ∧ (∀ kv ∈ vals, (allowedColumnsOf ti).contains kv.1 = true) := by
  constructor
  · intro h
    cases hc : crudUpdate tables table vals fs returning with
    | error e => rw [hc] at h; exact Bool.noConfusion h
    | ok st =>
      obtain ⟨ti, hft, hcf, hall, _⟩ := crudUpdate_ok_elim hc
      exact ⟨ti, hft, (checkFilterColumns_ok_iff _ _).mp hcf, hall⟩
  · intro ⟨ti, hft, hcf, hall⟩
    unfold crudUpdate
    rw [hft]
    dsimp only
    rw [(checkFilterColumns_ok_iff _ _).mpr hcf]
    dsimp only
    rw [setClauseParts_ok_of_all vals hall 1]
    rfl

/-- Helper: success of `crudDelete` is table existence plus validity
of every filter column. -/
theorem crudDelete_isOk_iff {α : Type} (tables : List TableInfo) (table : String)
    (fs : List (ParsedFilter α)) :
    exceptIsOk (crudDelete tables table fs) = true ↔
      ∃ ti, findTable tables table = some ti
        ∧ ∀ f ∈ fs, (allowedColumnsOf ti).contains f.column = true := by
  constructor
  · intro h
    cases hc : crudDelete tables table fs with
    | error e => rw [hc] at h; exact Bool.noConfusion h
    | ok st =>
      obtain ⟨ti, hft, hcf, _⟩ := crudDelete_ok_elim hc
      exact ⟨ti, hft, (checkFilterColumns_ok_iff _ _).mp hcf⟩
  · intro ⟨ti, hft, hcf⟩
    unfold crudDelete
    rw [hft]
    dsimp only
    rw [(checkFilterColumns_ok_iff _ _).mpr hcf]
    rfl

/-- C2 counterexample: a select list naming only the unknown column
`bogus` is not rejected — the compilation succeeds, is no BadRequest,
and the select clause silently becomes `*`. -/
theorem c2_counterexample :
    (allowedColumnsOf usersTable).contains ("bogus") = false
    ∧ exceptIsOk (crudSelect startupCfg [usersTable] ("users")
        ({ select := some (SelectList.cols ["bogus"]), order := none, limit := none,
           offset := none, filters := some [] } : SelectOptions String)) = true
    ∧ isBadRequest (crudSelect startupCfg [usersTable] ("users")
        ({ select := some (SelectList.cols ["bogus"]), order := none, limit := none,
           offset := none, filters := some [] } : SelectOptions String)) = false
    ∧ buildSelectColumns (SelectList.cols ["bogus"]) (allowedColumnsOf usersTable) = "*" := by
  refine ⟨by decide, by decide, by decide, by rfl⟩

/-- C2 as amended: order columns, filter columns and insert/update
body keys are each checked against the cached allowed columns, with
success of every CRUD compilation equivalent to their validity — but
select-list columns are never checked: they do not enter the success
condition, and `buildSelectColumns` silently drops unknown entries
(falling back to `*` when none survive). -/
theorem c2_column_checks :
    (∀ (α : Type) (cfg : QueryConfig) (tables : List TableInfo) (table : String)
        (opts : SelectOptions α),
      exceptIsOk (crudSelect cfg tables table opts) = true ↔
        ∃ ti, findTable tables table = some ti
          ∧ (∀ o, opts.order = some o → (allowedColumnsOf ti).contains o.column = true)
          ∧ (∀ fs, opts.filters = some fs →
              ∀ f ∈ fs, (allowedColumnsOf ti).contains f.column = true))
    ∧ (∀ (α : Type) (tables : List TableInfo) (table : String)
        (rows : List (List (String × JsValue α))) (returning : Bool),
      exceptIsOk (crudInsert tables table rows returning) = true ↔
        ∃ ti, findTable tables table = some ti
          ∧ ∀ row ∈ rows, ∀ kv ∈ row, (allowedColumnsOf ti).contains kv.1 = true)
    ∧ (∀ (α : Type) (tables : List TableInfo) (table : String)
        (vals : List (String × JsValue α)) (fs : List (ParsedFilter α)) (returning : Bool),
      exceptIsOk (crudUpdate tables table vals fs returning) = true ↔
        ∃ ti, findTable tables table = some ti
          ∧ (∀ f ∈ fs, (allowedColumnsOf ti).contains f.column = true)
          ∧ (∀ kv ∈ vals, (allowedColumnsOf ti).contains kv.1 = true))
    ∧ (∀ (α : Type) (tables : List TableInfo) (table : String)
        (fs : List (ParsedFilter α)),
      exceptIsOk (crudDelete tables table fs) = true ↔
        ∃ ti, findTable tables table = some ti
          ∧ ∀ f ∈ fs, (allowedColumnsOf ti).contains f.column = true)
    ∧ (∀ (cs allowed : List String),
      buildSelectColumns (SelectList.cols cs) allowed
        = buildSelectColumns
            (SelectList.cols (cs.filter (fun c => allowed.contains c))) allowed) := by
  refine ⟨fun α cfg tables table opts => crudSelect_isOk_iff cfg tables table opts,
    fun α tables table rows ret => crudInsert_isOk_iff tables table rows ret,
    fun α tables table vals fs ret => crudUpdate_isOk_iff tables table vals fs ret,
    fun α tables table fs => crudDelete_isOk_iff tables table fs,
    ?_⟩
  intro cs allowed
  unfold buildSelectColumns
  dsimp only
  rw [List.filter_filter]
  simp only [Bool.and_self]

/-- Witness for C2 as amended: the insert success criterion applied at
a concrete valid insert, and the select criterion at a request with an
unknown order column (refused). -/
theorem c2_column_checks_witness :
    exceptIsOk (crudInsert [usersTable] ("users")
      [[("name", JsValue.scalar ("John"))]] true) = true
    ∧ exceptIsOk (crudSelect startupCfg [usersTable] ("users")
        ({ select := some SelectList.star, order := some ⟨"nope", OrderDirection.asc⟩,
           limit := none, offset := none, filters := some [] } : SelectOptions String))
      = false := by
  constructor
  · exact (c2_column_checks.2.1 String [usersTable] ("users")
      [[("name", JsValue.scalar ("John"))]] true).mpr
      ⟨usersTable, by rfl, by decide⟩
  · have hiff := c2_column_checks.1 String startupCfg [usersTable] ("users")
      ({ select := some SelectList.star, order := some ⟨"nope", OrderDirection.asc⟩,
         limit := none, offset := none, filters := some [] } : SelectOptions String)
    cases hv : exceptIsOk (crudSelect startupCfg [usersTable] ("users")
        ({ select := some SelectList.star, order := some ⟨"nope", OrderDirection.asc⟩,
           limit := none, offset := none, filters := some [] } : SelectOptions String))
    · rfl
    · exfalso
      obtain ⟨ti, hft, ho, _⟩ := hiff.mp hv
      have hti : ti = usersTable := by
        have : findTable [usersTable] ("users") = some usersTable := by rfl
        rw [this] at hft
        exact (Option.some.inj hft).symm
      subst hti
      have := ho ⟨"nope", OrderDirection.asc⟩ rfl
      exact absurd this (by decide)

/-- Columns `buildSelectColumns` actually quotes: the allowed subset
of an explicit select list (the `*` forms quote nothing). -/
def selectValidColumns (sel : SelectList) (allowed : List String) : List String :=
  match sel with
  | SelectList.star => []
  | SelectList.cols cs => cs.filter (fun c => allowed.contains c)

/-- Helper: every quoted select column is allowed. -/
theorem selectValidColumns_sub (sel : SelectList) (allowed : List String) :
    ∀ c ∈ selectValidColumns sel allowed, allowed.contains c = true := by
  intro c hc
  cases sel with
  | star => exact absurd hc (List.not_mem_nil c)
  | cols cs => exact List.of_mem_filter hc

/-- C1: every client-supplied value reaches the database only through
the parameter vector — the statement text is a function of the
identifier/operator/arity shape alone (`whereClauseOfShape`,
`setClausesOfKeys`, `insertSqlOfKeys`), the parameter vector is
exactly the client values in order (`whereFlatten`, body values), and
each quoted identifier is validated: filter, order and body columns
against the cached allowed set, quoted select columns drawn from it,
and the table name equal to the matched cached table. -/
theorem c1_values_only_via_placeholders :
    (∀ (α : Type) (fs : List (ParsedFilter α)) (i : Nat),
      (buildWhereClause fs i).2 = whereFlatten fs
      ∧ (buildWhereClause fs i).1 = whereClauseOfShape (filtersShape fs) i)
    ∧ (∀ (α : Type) (cfg : QueryConfig) (tables : List TableInfo) (table : String)
        (opts : SelectOptions α) (res : SelectCompiled α),
      crudSelect cfg tables table opts = Except.ok res →
      res.params = whereFlatten (opts.filters.getD [])
      ∧ ∃ ti, findTable tables table = some ti ∧ ti.tableName = table
        ∧ (∀ fs, opts.filters = some fs →
            ∀ f ∈ fs, (allowedColumnsOf ti).contains f.column = true)
        ∧ (∀ o, opts.order = some o → (allowedColumnsOf ti).contains o.column = true)
        ∧ (∀ c ∈ selectValidColumns (opts.select.getD SelectList.star) (allowedColumnsOf ti),
            (allowedColumnsOf ti).contains c = true)
        ∧ res.sql = "\n      SELECT "
            ++ buildSelectColumns (opts.select.getD SelectList.star) (allowedColumnsOf ti)
            ++ "\n      FROM \"" ++ table ++ "\"\n      "
            ++ whereClauseOfShape (filtersShape (opts.filters.getD [])) 1 ++ "\n      "
            ++ buildOrderClause opts.order ++ "\n      LIMIT " ++ toString res.limit
            ++ " OFFSET " ++ toString res.offset ++ "\n    ")
    ∧ (∀ (α : Type) (tables : List TableInfo) (table : String)
        (rows : List (List (String × JsValue α))) (returning : Bool)
        (res : List (String × List (JsValue α))),
      crudInsert tables table rows returning = Except.ok res →
      res = rows.map (fun row =>
          (insertSqlOfKeys table returning (row.map (fun kv => kv.1)),
           row.map (fun kv => kv.2)))
      ∧ ∃ ti, findTable tables table = some ti ∧ ti.tableName = table
        ∧ ∀ row ∈ rows, ∀ kv ∈ row, (allowedColumnsOf ti).contains kv.1 = true)
    ∧ (∀ (α : Type) (tables : List TableInfo) (table : String)
        (vals : List (String × JsValue α)) (fs : List (ParsedFilter α)) (returning : Bool)
        (st : String × List (JsValue α)),
      crudUpdate tables table vals fs returning = Except.ok st →
      st.2 = vals.map (fun kv => kv.2) ++ whereFlatten fs
      ∧ st.1 = "\n      UPDATE \"" ++ table ++ "\"\n      SET "
          ++ joinSep (", ") (setClausesOfKeys (vals.map (fun kv => kv.1)) 1) ++ "\n      "
          ++ whereClauseOfShape (filtersShape fs) (1 + vals.length) ++ "\n      "
          ++ (if returning then "RETURNING *" else "") ++ "\n    "
      ∧ ∃ ti, findTable tables table = some ti ∧ ti.tableName = table
        ∧ (∀ f ∈ fs, (allowedColumnsOf ti).contains f.column = true)
        ∧ (∀ kv ∈ vals, (allowedColumnsOf ti).contains kv.1 = true))
    ∧ (∀ (α : Type) (tables : List TableInfo) (table : String)
        (fs : List (ParsedFilter α)) (st : String × List (JsValue α)),
      crudDelete tables table fs = Except.ok st →
      st.2 = whereFlatten fs
      ∧ st.1 = "DELETE FROM \"" ++ table ++ "\" " ++ whereClauseOfShape (filtersShape fs) 1
      ∧ ∃ ti, findTable tables table = some ti ∧ ti.tableName = table
        ∧ ∀ f ∈ fs, (allowedColumnsOf ti).contains f.column = true) := by
  refine ⟨?_, ?_, ?_, ?_, ?_⟩
  · intro α fs i
    exact ⟨buildWhereClause_snd_eq_flatten fs i, buildWhereClause_fst_eq_shape fs i⟩
  · intro α cfg tables table opts res h
    obtain ⟨ti, hft, ho, hf, hres⟩ := crudSelect_ok_elim h
    subst hres
    constructor
    · exact buildWhereClause_snd_eq_flatten _ _
    · refine ⟨ti, hft, findTable_eq hft, (checkFilterColumns_ok_iff_opt _ _).mp hf,
        (checkOrderColumn_ok_iff _ _).mp ho, selectValidColumns_sub _ _, ?_⟩
      dsimp only
      rw [buildWhereClause_fst_eq_shape]
  · intro α tables table rows returning res h
    obtain ⟨ti, hft, hall, hres⟩ := crudInsert_ok_elim h
    exact ⟨hres, ti, hft, findTable_eq hft, hall⟩
  · intro α tables table vals fs returning st h
    obtain ⟨ti, hft, hcf, hall, hst⟩ := crudUpdate_ok_elim h
    subst hst
    refine ⟨?_, ?_, ti, hft, findTable_eq hft, (checkFilterColumns_ok_iff _ _).mp hcf, hall⟩
    · dsimp only
      rw [buildWhereClause_snd_eq_flatten]
    · dsimp only
      rw [buildWhereClause_fst_eq_shape]
  · intro α tables table fs st h
    obtain ⟨ti, hft, hcf, hst⟩ := crudDelete_ok_elim h
    subst hst
    refine ⟨?_, ?_, ti, hft, findTable_eq hft, (checkFilterColumns_ok_iff _ _).mp hcf⟩
    · dsimp only
      rw [buildWhereClause_snd_eq_flatten]
    · dsimp only
      rw [buildWhereClause_fst_eq_shape]

/-- Concrete select options for the C1 witness: explicit select list,
order, limit and one equality filter. -/
def c1Opts : SelectOptions String :=
  { select := some (SelectList.cols ["name"]), order := some ⟨"id", OrderDirection.asc⟩,
    limit := some (JsNum.int 5), offset := none,
    filters := some [⟨"name", FilterOperator.eq, JsValue.scalar ("John")⟩] }

/-- Compiled result of the C1 witness request. -/
def c1Res : SelectCompiled String :=
  match crudSelect startupCfg [usersTable] ("users") c1Opts with
  | Except.ok r => r
  | Except.error _ => ⟨"", [], 0, 0⟩

/-- Witness for C1 at a concrete compiled SELECT. -/
theorem c1_values_only_via_placeholders_witness :
    c1Res.params = whereFlatten (c1Opts.filters.getD [])
    ∧ ∃ ti, findTable [usersTable] ("users") = some ti ∧ ti.tableName = "users"
      ∧ (∀ fs, c1Opts.filters = some fs →
          ∀ f ∈ fs, (allowedColumnsOf ti).contains f.column = true)
      ∧ (∀ o, c1Opts.order = some o → (allowedColumnsOf ti).contains o.column = true)
      ∧ (∀ c ∈ selectValidColumns (c1Opts.select.getD SelectList.star) (allowedColumnsOf ti),
          (allowedColumnsOf ti).contains c = true)
      ∧ c1Res.sql = "\n      SELECT "
          ++ buildSelectColumns (c1Opts.select.getD SelectList.star) (allowedColumnsOf ti)
          ++ "\n      FROM \"" ++ "users" ++ "\"\n      "
          ++ whereClauseOfShape (filtersShape (c1Opts.filters.getD [])) 1 ++ "\n      "
          ++ buildOrderClause c1Opts.order ++ "\n      LIMIT " ++ toString c1Res.limit
          ++ " OFFSET " ++ toString c1Res.offset ++ "\n    " :=
  c1_values_only_via_placeholders.2.1 String startupCfg [usersTable] ("users") c1Opts c1Res
    (by rfl)

end AtlasHub
